import Mathlib

/-!
Verification of the Virtual Campus server (`server.js`).

The server keeps a map of connected players, advances their positions on a
fixed 20 Hz tick (input-driven velocity plus a decaying knockback velocity,
clamped to the bounds of the current space), resolves melee ("bat") hits
with a range / arc / per-victim-cooldown test, enforces unique display
names (earliest-connected holder wins, later copies are kicked), and
relays chat, toy-equip, action and room-transition messages.

This file embeds the server's data model and handlers shallowly:
  * strings, booleans and integer timestamps are embedded directly
    (`Date.now()` values are `ℤ` milliseconds);
  * JavaScript numbers used by the physics are embedded as real numbers;
  * `null`/`undefined`-able fields become `Option`; JS truthiness on a
    room/subroom id (ids are nonempty strings) is `Option.isSome`, and
    truthiness on a number is a comparison with 0 (`jsOrR`);
  * the socket.io side effects become explicit event lists; kicking a
    socket (emit `kicked` + disconnect, which deletes the player record)
    becomes an event plus removal from the player list.
-/

/-! ### Data model (from `server.js`) -/

/-- A 2-D point (campus or interior coordinates). -/
structure Pt where
  x : ℝ
  y : ℝ

/-- A room or subroom interior: `w`/`h` may be absent in the loaded
`campus.json` (and `|| d` fallbacks treat 0 as absent), `spawn` may be
absent.  Background and decorative objects are irrelevant to the server
logic and are omitted. -/
structure Interior where
  w : Option ℝ
  h : Option ℝ
  spawn : Option Pt

/-- A subroom: id plus optional interior. -/
structure Subroom where
  id : String
  interior : Option Interior

/-- A room: id, optional interior, subrooms.  The `enter` rectangle exists
in the data file but is never read by the server handlers. -/
structure Room where
  id : String
  interior : Option Interior
  subrooms : List Subroom

/-- The world: campus bounds plus rooms (obstacles are never consulted by
the server-side simulation). -/
structure World where
  width : Option ℝ
  height : Option ℝ
  rooms : List Room

/-- The four independent direction flags of the latest movement intent. -/
structure Input where
  up : Bool
  down : Bool
  left : Bool
  right : Bool

/-- One per-session player record, exactly the fields created on
`connection` in `server.js`. -/
structure Player where
  id : String
  name : String
  color : String
  x : ℝ
  y : ℝ
  rx : ℝ
  ry : ℝ
  kvx : ℝ
  kvy : ℝ
  rkvx : ℝ
  rkvy : ℝ
  roomId : Option String
  subroomId : Option String
  equippedKind : Option String
  input : Input
  chatText : Option String
  chatTs : ℤ
  lastHitTs : ℤ
  connectedAt : ℤ

/-- The `action` payload broadcast by the action handler. -/
structure ActionOut where
  id : String
  kind : Option String
  aid : Option String
  space : String
  roomId : Option String
  subroomId : Option String
  origin : Pt
  target : Pt
  ts : ℤ

/-- The `hit` payload broadcast by `doBatHit`. -/
structure HitEvent where
  victimId : String
  fromId : String
  space : String
  roomId : Option String
  subroomId : Option String
  dirx : ℝ
  diry : ℝ
  ts : ℤ

/-- Messages emitted to individual sockets by the identity layer. -/
inductive JoinEv where
  | profile (id name : String)
  | nameError (id name : String)
  | kicked (id reason : String)
deriving DecidableEq

/-! ### Config constants (from the top of `server.js`) -/

def TICK_MS : ℝ := 50

noncomputable def DT : ℝ := TICK_MS / 1000

def CAMPUS_SPEED : ℝ := 210

def ROOM_SPEED : ℝ := 220

def FRICTION : ℝ := 0.90

noncomputable def BAT_ARC_RAD : ℝ := Real.pi * 0.75

def BAT_RANGE_PX : ℝ := 70

def BAT_KNOCK_PXPS : ℝ := 520

def BAT_HIT_COOLDOWN_MS : ℤ := 350

def TOYS : List String :=
  ["bat", "cake", "pizza", "mic", "book", "flag", "laptop", "ball", "paint"]

/-- The avatar collision radius sent to clients in the `init` message
(`radius: 18`). -/
def avatarRadius : ℝ := 18

/-- The fallback world used when no `campus.json` is present (its obstacle
list is irrelevant to the server simulation; it has no rooms). -/
def DEFAULT_WORLD : World :=
  { width := some 3200, height := some 2000, rooms := [] }

/-! ### JS helpers -/

/-- JS `a || d` for an optional number: `null`/`undefined` and `0` are
falsy and select the fallback. -/
noncomputable def jsOrR (a : Option ℝ) (d : ℝ) : ℝ :=
  match a with
  | none => d
  | some v => if v = 0 then d else v

/-- JS `a || d` for an optional string: `null`/`undefined` and the empty
string are falsy and select the fallback. -/
def jsOrS (a : Option String) (d : String) : String :=
  match a with
  | none => d
  | some v => if v = "" then d else v

/-! ### Utilities (from `server.js`) -/

/-- Characters kept by `safeName`: the regex class `[\p{L}\p{N} _\-'.]`
(Unicode letters/digits modelled by `Char.isAlpha`/`Char.isDigit`). -/
def isNameChar (c : Char) : Bool :=
  c.isAlpha || c.isDigit || c = ' ' || c = '_' || c = '-' || c = '\'' || c = '.'

/-- JS `String.prototype.trim`: strip leading and trailing whitespace. -/
def trimL (l : List Char) : List Char :=
  ((l.dropWhile Char.isWhitespace).reverse.dropWhile Char.isWhitespace).reverse

/-- `safeName` on character lists: `String(s).slice(0, 16).trim()`, strip
characters outside the allow-list, `trim()` again, and fall back to
`'Penguin'` when the result is empty. -/
def safeNameL (l : List Char) : List Char :=
  let s1 := trimL (l.take 16)
  let s2 := trimL (s1.filter isNameChar)
  if s2 = [] then "Penguin".toList else s2

/-- `safeName` from `server.js`. -/
def safeName (s : String) : String :=
  String.mk (safeNameL s.toList)

/-- Collapse every maximal run of whitespace into one space
(the regex replace `/\s+/g → ' '`). -/
def collapseWS (l : List Char) : List Char :=
  l.foldr
    (fun c acc =>
      if c.isWhitespace then
        match acc with
        | ' ' :: _ => acc
        | _ => ' ' :: acc
      else c :: acc) []

/-- `normName` from `server.js`: lower-case, collapse whitespace, trim.
(`toLowerCase` modelled by `Char.toLower`.) -/
def normName (s : String) : String :=
  String.mk (trimL (collapseWS (s.toList.map Char.toLower)))

/-- Find a player record by socket id (`players.get(id)`; the list is the
`players` map in insertion order). -/
def lookupP (ps : List Player) (sid : String) : Option Player :=
  ps.find? (fun q => q.id = sid)

/-- `roomById` from `server.js`. -/
def roomById (w : World) (id : String) : Option Room :=
  w.rooms.find? (fun r => r.id = id)

/-- `subroomById` from `server.js` (`null` room or `null` sub id give
`null`). -/
def subroomById (r : Option Room) (subId : Option String) : Option Subroom :=
  match r, subId with
  | some room, some s => room.subrooms.find? (fun sr => sr.id = s)
  | _, _ => none

/-! ### Identity registry: `join` handler and `enforceUniqueNames` -/

/-- The players currently holding a normalized name (iteration order of the
`players` map = insertion order). -/
def holdersOf (ps : List Player) (key : String) : List Player :=
  ps.filter (fun q => normName q.name = key)

/-- Head of the holders list after the stable sort
`arr.sort((a,b) => a.connectedAt - b.connectedAt)`: the first element
carrying the minimal `connectedAt` (JS `Array.prototype.sort` is stable). -/
def stableMinBy (l : List Player) : Option Player :=
  l.foldl
    (fun acc q =>
      match acc with
      | none => some q
      | some m => if q.connectedAt < m.connectedAt then some q else some m)
    none

/-- The `holders.length === 0 || (holders.length === 1 && holders[0].id ===
socket.id)` test of the `join` handler. -/
def soleSelf (holders : List Player) (sid : String) : Bool :=
  match holders with
  | [] => true
  | [q] => q.id == sid
  | _ => false

/-- Rename the player with socket id `sid` (`p.name = desired`). -/
def setNameIn (ps : List Player) (sid : String) (n : String) : List Player :=
  ps.map (fun q => if q.id = sid then { q with name := n } else q)

/-- Remove a player (the effect of `kickSocket`: after emitting `kicked`
the socket is disconnected, and the disconnect handler deletes the
record). -/
def removeP (ps : List Player) (sid : String) : List Player :=
  ps.filter (fun q => ¬ q.id = sid)

/-- The `join` handler of `server.js` (lines 209-247) as a state
transition: returns the new player list and the emitted messages. -/
def join (ps : List Player) (sid : String) (rawName : String) :
    List Player × List JoinEv :=
  match lookupP ps sid with
  | none => (ps, [])
  | some _ =>
    let desired := safeName rawName
    let key := normName desired
    let holders := holdersOf ps key
    if soleSelf holders sid then
      (setNameIn ps sid desired, [JoinEv.profile sid desired])
    else
      match stableMinBy holders with
      | none => (ps, [])
      | some owner =>
        if owner.id = sid then
          ((setNameIn ps sid desired).filter
              (fun q => q.id = sid ∨ ¬ normName q.name = key),
           ((holdersOf ps key).filter (fun q => ¬ q.id = sid)).map
              (fun q => JoinEv.kicked q.id ("duplicate_name:" ++ key))
             ++ [JoinEv.profile sid desired])
        else
          (removeP ps sid,
           [JoinEv.nameError sid desired,
            JoinEv.kicked sid ("duplicate_name:" ++ key)])

/-- Is `q` kicked by the periodic duplicate sweep?  (`q` belongs to a
nonempty normalized-name group of size at least two and is not the
earliest-connected holder of that name.) -/
def dupKicked (ps : List Player) (q : Player) : Bool :=
  let key := normName q.name
  if key = "" then false
  else
    let arr := holdersOf ps key
    if arr.length ≤ 1 then false
    else
      match stableMinBy arr with
      | none => false
      | some owner => !(owner.id == q.id)

/-- `enforceUniqueNames` from `server.js` (lines 153-172): keep the
earliest-connected holder of every normalized name, kick every other
holder. -/
def enforceUniqueNames (ps : List Player) : List Player × List JoinEv :=
  (ps.filter (fun q => ¬ dupKicked ps q = true),
   (ps.filter (fun q => dupKicked ps q = true)).map
     (fun q => JoinEv.kicked q.id ("duplicate_name:" ++ normName q.name)))

/-! ### Chat handler (from `server.js`, lines 289-295) -/

/-- The `chat` handler: `String(txt || '').slice(0, 140)` is stored with
the current server time; there is no rate limiting in `server.js`. -/
def chatHandler (ps : List Player) (sid : String) (txt : Option String)
    (now : ℤ) : List Player :=
  match lookupP ps sid with
  | none => ps
  | some _ =>
    ps.map (fun q =>
      if q.id = sid then
        { q with chatText := some (String.mk ((jsOrS txt "").toList.take 140)),
                 chatTs := now }
      else q)

/-! ### Room transitions (from `server.js`, lines 311-343) -/

/-- The spawn point used on entering a room or subroom:
`interior?.spawn || { x: (interior?.w || 1000)/2, y: (interior?.h || 600)/2 }`. -/
noncomputable def spawnOf (i : Option Interior) : Pt :=
  match i.bind Interior.spawn with
  | some s => s
  | none =>
    { x := jsOrR (i.bind Interior.w) 1000 / 2,
      y := jsOrR (i.bind Interior.h) 600 / 2 }

/-- The `roomChanged` confirmation sent back to the mover. -/
structure RoomChanged where
  id : String
  roomId : Option String
  subroomId : Option String

/-- The `enterRoom` handler: no spatial precondition — any existing room
can be entered from anywhere. -/
noncomputable def enterRoom (w : World) (ps : List Player) (sid : String)
    (roomId : String) : List Player × Option RoomChanged :=
  match lookupP ps sid, roomById w roomId with
  | some _, some r =>
    let sp := spawnOf r.interior
    (ps.map (fun q =>
        if q.id = sid then
          { q with roomId := some r.id, subroomId := none,
                   rx := sp.x, ry := sp.y,
                   kvx := 0, kvy := 0, rkvx := 0, rkvy := 0 }
        else q),
     some { id := sid, roomId := some r.id, subroomId := none })
  | _, _ => (ps, none)

/-- The `enterSubroom` handler: requires the room and the subroom to
exist, nothing else. -/
noncomputable def enterSubroom (w : World) (ps : List Player) (sid : String)
    (roomId subroomId : String) : List Player × Option RoomChanged :=
  match lookupP ps sid, roomById w roomId with
  | some _, some r =>
    match subroomById (some r) (some subroomId) with
    | some sr =>
      let sp := spawnOf sr.interior
      (ps.map (fun q =>
          if q.id = sid then
            { q with roomId := some r.id, subroomId := some sr.id,
                     rx := sp.x, ry := sp.y,
                     kvx := 0, kvy := 0, rkvx := 0, rkvy := 0 }
          else q),
       some { id := sid, roomId := some r.id, subroomId := some sr.id })
    | none => (ps, none)
  | _, _ => (ps, none)

/-! ### Real-number JS primitives -/

/-- JS `Math.hypot(x, y)`. -/
noncomputable def hypot (x y : ℝ) : ℝ :=
  Real.sqrt (x ^ 2 + y ^ 2)

/-- Truncation toward zero (the integer part used by the JS `%` operator
and by `ToInt32`). -/
noncomputable def jsTrunc (x : ℝ) : ℤ :=
  if 0 ≤ x then ⌊x⌋ else -⌊-x⌋

/-- The JS remainder operator `a % b` on numbers: `a - b * trunc(a / b)`;
the result carries the sign of the dividend. -/
noncomputable def jsRem (a b : ℝ) : ℝ :=
  a - b * (jsTrunc (a / b) : ℝ)

/-- JS `Math.atan2(y, x)`: the angle of `(x, y)` in `(-π, π]`. -/
noncomputable def atan2 (y x : ℝ) : ℝ :=
  if 0 < x then Real.arctan (y / x)
  else if x < 0 then
    (if 0 ≤ y then Real.arctan (y / x) + Real.pi
     else Real.arctan (y / x) - Real.pi)
  else if 0 < y then Real.pi / 2
  else if y < 0 then -(Real.pi / 2)
  else 0

/-- JS `x | 0` (`ToInt32`): truncate, then wrap into
`[-2^31, 2^31)`. -/
noncomputable def jsToInt32 (x : ℝ) : ℤ :=
  (jsTrunc x + 2 ^ 31) % 2 ^ 32 - 2 ^ 31

/-! ### `clampTarget` (from `server.js`, lines 378-398) -/

/-- `clampTarget` from `server.js`: clamp an action target into the bounds
of the given space (campus, or room/subroom interior with the source's
`|| 1200` / `|| 720` fallbacks); coordinates pass through `|0` first. -/
noncomputable def clampTarget (w : World) (target : Option Pt)
    (roomId subroomId : Option String) : Pt :=
  let t := target.getD { x := 0, y := 0 }
  match roomId with
  | none =>
    { x := max 0 (min (jsOrR w.width 3200) ((jsToInt32 t.x : ℝ))),
      y := max 0 (min (jsOrR w.height 2000) ((jsToInt32 t.y : ℝ))) }
  | some rid =>
    let r := roomById w rid
    let w0 := jsOrR ((r.bind Room.interior).bind Interior.w) 1200
    let h0 := jsOrR ((r.bind Room.interior).bind Interior.h) 720
    let w1 :=
      if subroomId.isSome then
        jsOrR (((subroomById r subroomId).bind Subroom.interior).bind Interior.w) w0
      else w0
    let h1 :=
      if subroomId.isSome then
        jsOrR (((subroomById r subroomId).bind Subroom.interior).bind Interior.h) h0
      else h0
    { x := max 0 (min w1 ((jsToInt32 t.x : ℝ))),
      y := max 0 (min h1 ((jsToInt32 t.y : ℝ))) }

/-! ### Bat hit resolution (`doBatHit`, from `server.js` lines 400-448) -/

/-- The candidate's position in the attacker's coordinate space. -/
def victimPos (inRoom : Bool) (v : Player) : ℝ × ℝ :=
  if inRoom then (v.rx, v.ry) else (v.x, v.y)

/-- The per-candidate angular difference computed by `doBatHit`:
`Math.abs(((toVictim - ang + Math.PI) % (2*Math.PI)) - Math.PI)` as a
function of the raw difference `d = toVictim - ang`. -/
noncomputable def dAngOf (d : ℝ) : ℝ :=
  |jsRem (d + Real.pi) (2 * Real.pi) - Real.pi|

/-- The range / arc / cooldown test and the mutation applied to one
candidate that already passed the same-space filter: returns the updated
record and the `hit` payload if the swing connects. -/
noncomputable def batTest (a : Player) (ang : ℝ) (sw : ActionOut) (now : ℤ)
    (inRoom : Bool) (v : Player) : Player × Option HitEvent :=
  let px := (victimPos inRoom v).1
  let py := (victimPos inRoom v).2
  let dx := px - sw.origin.x
  let dy := py - sw.origin.y
  let dist := hypot dx dy
  if BAT_RANGE_PX < dist then (v, none)
  else
    let toVictim := atan2 dy dx
    let dAng := dAngOf (toVictim - ang)
    if BAT_ARC_RAD * 0.5 < dAng then (v, none)
    else if now - v.lastHitTs < BAT_HIT_COOLDOWN_MS then (v, none)
    else
      let nx := if 0 < dist then dx / dist else Real.cos ang
      let ny := if 0 < dist then dy / dist else Real.sin ang
      ({ v with lastHitTs := now,
                kvx := if inRoom then v.kvx else v.kvx + nx * BAT_KNOCK_PXPS,
                kvy := if inRoom then v.kvy else v.kvy + ny * BAT_KNOCK_PXPS,
                rkvx := if inRoom then v.rkvx + nx * BAT_KNOCK_PXPS else v.rkvx,
                rkvy := if inRoom then v.rkvy + ny * BAT_KNOCK_PXPS else v.rkvy },
       some { victimId := v.id, fromId := a.id, space := sw.space,
              roomId := sw.roomId, subroomId := sw.subroomId,
              dirx := nx, diry := ny, ts := now })

/-- One candidate of the `doBatHit` loop: the same-space filter followed by
`batTest`. -/
noncomputable def batVictim (a : Player) (ang : ℝ) (sw : ActionOut) (now : ℤ)
    (v : Player) : Player × Option HitEvent :=
  match a.roomId with
  | none =>
    if v.roomId.isSome then (v, none)
    else batTest a ang sw now false v
  | some _ =>
    if ¬ v.roomId = a.roomId then (v, none)
    else if ¬ v.subroomId.isSome = a.subroomId.isSome then (v, none)
    else if v.subroomId.isSome ∧ ¬ v.subroomId = a.subroomId then (v, none)
    else batTest a ang sw now true v

/-- `doBatHit` from `server.js`: scan every other player, apply the
same-space / range / arc / cooldown tests, knock back and notify each
connecting candidate.  Returns the updated player list and the emitted
`hit` events. -/
noncomputable def doBatHit (a : Player) (sw : ActionOut) (now : ℤ)
    (ps : List Player) : List Player × List HitEvent :=
  let ang := atan2 (sw.target.y - sw.origin.y) (sw.target.x - sw.origin.x)
  (ps.map (fun v => if v.id = a.id then v else (batVictim a ang sw now v).1),
   ps.filterMap (fun v => if v.id = a.id then none else (batVictim a ang sw now v).2))

/-! ### Action handler (from `server.js`, lines 346-370) -/

/-- The `action` handler: silently rejected unless `kind` matches the
equipped kind; otherwise broadcast the payload (server timestamp, clamped
target) and, for the bat, run hit resolution. -/
noncomputable def actionHandler (w : World) (ps : List Player) (sid : String)
    (kind : Option String) (target : Option Pt) (aid : Option String)
    (now : ℤ) : List Player × Option ActionOut × List HitEvent :=
  match lookupP ps sid with
  | none => (ps, none, [])
  | some a =>
    if ¬ a.equippedKind = kind then (ps, none, [])
    else
      let inRoom := a.roomId.isSome
      let origin : Pt := if inRoom then { x := a.rx, y := a.ry } else { x := a.x, y := a.y }
      let tgt := clampTarget w target (if inRoom then a.roomId else none) a.subroomId
      let payload : ActionOut :=
        { id := a.id, kind := kind, aid := aid,
          space := if inRoom then "room" else "campus",
          roomId := a.roomId, subroomId := a.subroomId,
          origin := origin, target := tgt, ts := now }
      if kind = some "bat" then
        let r := doBatHit a payload now ps
        (r.1, some payload, r.2)
      else (ps, some payload, [])

/-! ### Simulation tick (`step`, from `server.js` lines 451-487) -/

/-- The effective interior width used by the tick clamp:
`(sr?.interior?.w) || (r?.interior?.w) || 1200`. -/
noncomputable def effRoomW (w : World) (rid : String) (sub : Option String) : ℝ :=
  let r := roomById w rid
  jsOrR (((subroomById r sub).bind Subroom.interior).bind Interior.w)
    (jsOrR ((r.bind Room.interior).bind Interior.w) 1200)

/-- The effective interior height used by the tick clamp. -/
noncomputable def effRoomH (w : World) (rid : String) (sub : Option String) : ℝ :=
  let r := roomById w rid
  jsOrR (((subroomById r sub).bind Subroom.interior).bind Interior.h)
    (jsOrR ((r.bind Room.interior).bind Interior.h) 720)

/-- The effective campus width used by the tick clamp: `world.width || 3200`. -/
noncomputable def effCampusW (w : World) : ℝ := jsOrR w.width 3200

/-- The effective campus height used by the tick clamp: `world.height || 2000`. -/
noncomputable def effCampusH (w : World) : ℝ := jsOrR w.height 2000

/-- One tick of the simulation for one player (`step` body): normalized
input direction times the space's speed constant, plus the knockback
velocity, integrated over `DT`; position clamped to the space bounds;
knockback decayed by `FRICTION`. -/
noncomputable def stepPlayer (w : World) (p : Player) : Player :=
  let ix0 : ℝ := (if p.input.right then 1 else 0) - (if p.input.left then 1 else 0)
  let iy0 : ℝ := (if p.input.down then 1 else 0) - (if p.input.up then 1 else 0)
  let n := hypot ix0 iy0
  let ix := if ix0 = 0 ∧ iy0 = 0 then ix0 else ix0 / n
  let iy := if ix0 = 0 ∧ iy0 = 0 then iy0 else iy0 / n
  match p.roomId with
  | none =>
    { p with
      x := max 0 (min (effCampusW w) (p.x + (ix * CAMPUS_SPEED + p.kvx) * DT)),
      y := max 0 (min (effCampusH w) (p.y + (iy * CAMPUS_SPEED + p.kvy) * DT)),
      kvx := p.kvx * FRICTION,
      kvy := p.kvy * FRICTION }
  | some rid =>
    { p with
      rx := max 0 (min (effRoomW w rid p.subroomId)
        (p.rx + (ix * ROOM_SPEED + p.rkvx) * DT)),
      ry := max 0 (min (effRoomH w rid p.subroomId)
        (p.ry + (iy * ROOM_SPEED + p.rkvy) * DT)),
      rkvx := p.rkvx * FRICTION,
      rkvy := p.rkvy * FRICTION }

/-- A run of ticks: before each tick the client may change its input
(`setInput` overwrites the stored intent; the tick then integrates it). -/
noncomputable def runTicks (w : World) (p : Player) (inps : List Input) : Player :=
  inps.foldl (fun q i => stepPlayer w { q with input := i }) p

/-! ### Generic helper lemmas -/

lemma trimL_sublist (l : List Char) : List.Sublist (trimL l) l := by
  have h1 : List.Sublist (l.dropWhile Char.isWhitespace) l := List.dropWhile_sublist _
  have h2 : List.Sublist
      ((l.dropWhile Char.isWhitespace).reverse.dropWhile Char.isWhitespace)
      (l.dropWhile Char.isWhitespace).reverse := List.dropWhile_sublist _
  have h3 := h2.reverse
  rw [List.reverse_reverse] at h3
  simpa [trimL] using h3.trans h1

lemma lookupP_some_id {ps : List Player} {sid : String} {p : Player}
    (h : lookupP ps sid = some p) : p.id = sid := by
  have := List.find?_some h
  simpa using this

lemma lookupP_map_of_id (ps : List Player) (tid : String) (g : Player → Player)
    (hg : ∀ q, (g q).id = q.id) :
    lookupP (ps.map g) tid = (lookupP ps tid).map g := by
  induction ps with
  | nil => rfl
  | cons a t ih =>
    by_cases h : a.id = tid
    · simp only [lookupP, List.map_cons] at *
      rw [List.find?_cons_of_pos, List.find?_cons_of_pos] <;> simp [hg, h]
    · simp only [lookupP, List.map_cons] at *
      rw [List.find?_cons_of_neg, List.find?_cons_of_neg]
      · exact ih
      · simp [h]
      · simp [hg, h]

/-- A convenient fully-specified player record for concrete scenarios. -/
noncomputable def basePlayer : Player :=
  { id := "p", name := "Penguin", color := "c", x := 0, y := 0, rx := 240, ry := 340,
    kvx := 0, kvy := 0, rkvx := 0, rkvy := 0, roomId := none, subroomId := none,
    equippedKind := none,
    input := { up := false, down := false, left := false, right := false },
    chatText := none, chatTs := 0, lastHitTs := 0, connectedAt := 0 }

/-! ### C8 — name sanitization -/

/-- The allow-list exactly as the specification words it: letters, digits,
space, hyphen, apostrophe, period (no underscore). -/
def specNameChar (c : Char) : Bool :=
  c.isAlpha || c.isDigit || c = ' ' || c = '-' || c = '\'' || c = '.'

lemma safeNameL_spec (l : List Char) :
    safeNameL l ≠ [] ∧ (safeNameL l).length ≤ 16 ∧
      ∀ c ∈ safeNameL l, isNameChar c = true := by
  by_cases h : trimL ((trimL (l.take 16)).filter isNameChar) = []
  · unfold safeNameL
    rw [if_pos h]
    refine ⟨by decide, by decide, by decide⟩
  · unfold safeNameL
    rw [if_neg h]
    have hsub : List.Sublist (trimL ((trimL (l.take 16)).filter isNameChar))
        ((trimL (l.take 16)).filter isNameChar) := trimL_sublist _
    refine ⟨h, ?_, ?_⟩
    · calc (trimL ((trimL (l.take 16)).filter isNameChar)).length
          ≤ ((trimL (l.take 16)).filter isNameChar).length := hsub.length_le
        _ ≤ (trimL (l.take 16)).length := List.length_filter_le _ _
        _ ≤ (l.take 16).length := (trimL_sublist _).length_le
        _ ≤ 16 := by simp [List.length_take]
    · intro c hc
      have := hsub.mem hc
      exact (List.mem_filter.1 this).2

/-- Claim C8 (counterexample): the claim's allow-list omits the
underscore, but `safeName` keeps underscores: the requested name `"_"` is
stored unchanged, and `'_'` is not in the claimed character set. -/
theorem claimC8_counterexample :
    safeName "_" = "_" ∧ ∃ c ∈ (safeName "_").toList, specNameChar c = false := by
  constructor
  · rfl
  · exact ⟨'_', by decide, by decide⟩

/-- Claim C8 (amended): for every requested name string the sanitized
display name is nonempty (default `'Penguin'` when the stripped result is
empty), at most 16 characters long, and contains only characters from the
allow-list letters/digits/space/underscore/hyphen/apostrophe/period. -/
theorem claimC8_amended (s : String) :
    safeName s ≠ "" ∧ (safeName s).toList.length ≤ 16 ∧
      ∀ c ∈ (safeName s).toList, isNameChar c = true := by
  obtain ⟨h1, h2, h3⟩ := safeNameL_spec s.toList
  refine ⟨?_, ?_, ?_⟩
  · intro h
    exact h1 (congrArg String.toList h)
  · exact h2
  · exact h3

/-! ### C9 — chat is not rate-limited in `server.js` -/

/-- The chat rate-limit window of the `part_004` variant
(`CHAT_COOLDOWN_MS = 600`); `server.js` itself enforces no such window. -/
def CHAT_COOLDOWN_MS : ℤ := 600

/-- A player who chatted at time 1000. -/
noncomputable def pChat : Player :=
  { basePlayer with id := "a", name := "Alice",
                    chatText := some "old", chatTs := 1000 }

/-- Claim C9 (counterexample): a second chat message arriving 1 ms after
the previous accepted chat — far inside any rate-limit window — is not
dropped: the stored chat text and timestamp are replaced. -/
theorem claimC9_counterexample :
    (1001 : ℤ) - 1000 < CHAT_COOLDOWN_MS ∧
    ∃ q, lookupP (chatHandler [pChat] "a" (some "new") 1001) "a" = some q ∧
      q.chatText = some "new" ∧ q.chatTs = 1001 ∧ ¬ q.chatTs = pChat.chatTs := by
  refine ⟨by norm_num [CHAT_COOLDOWN_MS], ?_⟩
  refine ⟨{ pChat with chatText := some "new", chatTs := 1001 }, ?_, rfl, rfl, ?_⟩
  · simp [chatHandler, lookupP, List.find?, pChat, basePlayer, jsOrS]
  · simp [pChat, basePlayer]

/-- Claim C9 (amended): chat messages are not rate-limited by
`server.js`: every chat message from a connected session immediately
replaces the player's stored chat text (coerced to a string and truncated
to 140 units) and sets the chat timestamp to the server time, regardless
of how recently the previous chat was accepted. -/
theorem claimC9_amended (ps : List Player) (sid : String) (txt : Option String)
    (now : ℤ) (p : Player) (h : lookupP ps sid = some p) :
    ∃ q, lookupP (chatHandler ps sid txt now) sid = some q ∧
      q.chatText = some (String.mk ((jsOrS txt "").toList.take 140)) ∧
      q.chatTs = now := by
  have hid := lookupP_some_id h
  unfold chatHandler
  rw [h]
  rw [lookupP_map_of_id]
  · rw [h]
    refine ⟨_, rfl, ?_, ?_⟩ <;> simp [hid]
  · intro q
    by_cases hq : q.id = sid <;> simp [hq]

/-- Claim C9 (witness): the amended theorem applied to a concrete state. -/
theorem claimC9_witness :
    ∃ q, lookupP (chatHandler [pChat] "a" (some "hello") 2000) "a" = some q ∧
      q.chatText = some (String.mk ((jsOrS (some "hello") "").toList.take 140)) ∧
      q.chatTs = 2000 :=
  claimC9_amended [pChat] "a" (some "hello") 2000 pChat
    (by simp [lookupP, List.find?, pChat, basePlayer])

/-! ### C10 — room entry has no spatial precondition -/

/-- A concrete test room with one subroom (the `A Wing` layout of the
default campus of the older server variant). -/
noncomputable def roomA : Room :=
  { id := "a",
    interior := some { w := some 1100, h := some 700, spawn := some { x := 240, y := 340 } },
    subrooms :=
      [{ id := "a1",
         interior := some { w := some 1000, h := some 680, spawn := some { x := 200, y := 320 } } }] }

/-- A concrete world containing `roomA`. -/
noncomputable def worldA : World :=
  { width := some 3200, height := some 2000, rooms := [roomA] }

/-- A player far away from every room, standing on the campus. -/
noncomputable def pEnter : Player :=
  { basePlayer with id := "e", name := "Eve", x := 999, y := 888,
                    kvx := 7, kvy := -3, rkvx := 2, rkvy := 5 }

/-- Claim C10: entering a room or subroom that exists in the world always
succeeds, for every player state — the space locator is set, the interior
position resets to the target interior's spawn point, both knockback
accumulators are zeroed, and a `roomChanged` confirmation is emitted;
the player's current position and space are never examined (the `enter`
rectangle is not checked server-side). -/
theorem claimC10_enter :
    (∀ (w : World) (ps : List Player) (sid rid : String) (p : Player) (r : Room),
      lookupP ps sid = some p → roomById w rid = some r →
      ∃ q, lookupP (enterRoom w ps sid rid).1 sid = some q ∧
        q.roomId = some r.id ∧ q.subroomId = none ∧
        q.rx = (spawnOf r.interior).x ∧ q.ry = (spawnOf r.interior).y ∧
        q.kvx = 0 ∧ q.kvy = 0 ∧ q.rkvx = 0 ∧ q.rkvy = 0 ∧
        (∀ s, r.interior.bind Interior.spawn = some s → q.rx = s.x ∧ q.ry = s.y) ∧
        (enterRoom w ps sid rid).2 =
          some { id := sid, roomId := some r.id, subroomId := none }) ∧
    (∀ (w : World) (ps : List Player) (sid rid srid : String) (p : Player)
      (r : Room) (sr : Subroom),
      lookupP ps sid = some p → roomById w rid = some r →
      subroomById (some r) (some srid) = some sr →
      ∃ q, lookupP (enterSubroom w ps sid rid srid).1 sid = some q ∧
        q.roomId = some r.id ∧ q.subroomId = some sr.id ∧
        q.rx = (spawnOf sr.interior).x ∧ q.ry = (spawnOf sr.interior).y ∧
        q.kvx = 0 ∧ q.kvy = 0 ∧ q.rkvx = 0 ∧ q.rkvy = 0 ∧
        (∀ s, sr.interior.bind Interior.spawn = some s → q.rx = s.x ∧ q.ry = s.y) ∧
        (enterSubroom w ps sid rid srid).2 =
          some { id := sid, roomId := some r.id, subroomId := some sr.id }) := by
  constructor
  · intro w ps sid rid p r hp hr
    have hid := lookupP_some_id hp
    unfold enterRoom
    rw [hp, hr]
    refine ⟨{ p with
                roomId := some r.id,
                subroomId := none,
                rx := (spawnOf r.interior).x,
                ry := (spawnOf r.interior).y,
                kvx := 0, kvy := 0, rkvx := 0, rkvy := 0 },
            ?_, rfl, rfl, rfl, rfl, rfl, rfl, rfl, rfl, ?_, rfl⟩
    · simp only
      rw [lookupP_map_of_id]
      · rw [hp]
        simp [hid]
      · intro q
        by_cases hq : q.id = sid <;> simp [hq]
    · intro s hs
      simp [spawnOf, hs]
  · intro w ps sid rid srid p r sr hp hr hsr
    have hid := lookupP_some_id hp
    unfold enterSubroom
    simp only [hp, hr]
    rw [hsr]
    refine ⟨{ p with
                roomId := some r.id,
                subroomId := some sr.id,
                rx := (spawnOf sr.interior).x,
                ry := (spawnOf sr.interior).y,
                kvx := 0, kvy := 0, rkvx := 0, rkvy := 0 },
            ?_, rfl, rfl, rfl, rfl, rfl, rfl, rfl, rfl, ?_, rfl⟩
    · simp only
      rw [lookupP_map_of_id]
      · rw [hp]
        simp [hid]
      · intro q
        by_cases hq : q.id = sid <;> simp [hq]
    · intro s hs
      simp [spawnOf, hs]

/-- Claim C10 (witness): a player standing at (999, 888) on the campus —
nowhere near the room's footprint — successfully enters room `a` and then
subroom `a1` of the concrete world. -/
theorem claimC10_witness :
    (∃ q, lookupP (enterRoom worldA [pEnter] "e" "a").1 "e" = some q ∧
      q.roomId = some roomA.id ∧ q.subroomId = none ∧
      q.rx = (spawnOf roomA.interior).x ∧ q.ry = (spawnOf roomA.interior).y ∧
      q.kvx = 0 ∧ q.kvy = 0 ∧ q.rkvx = 0 ∧ q.rkvy = 0 ∧
      (∀ s, roomA.interior.bind Interior.spawn = some s → q.rx = s.x ∧ q.ry = s.y) ∧
      (enterRoom worldA [pEnter] "e" "a").2 =
        some { id := "e", roomId := some roomA.id, subroomId := none }) ∧
    (∃ q, lookupP (enterSubroom worldA [pEnter] "e" "a" "a1").1 "e" = some q ∧
      q.roomId = some roomA.id ∧ q.subroomId = some "a1" ∧
      q.kvx = 0 ∧ q.kvy = 0 ∧ q.rkvx = 0 ∧ q.rkvy = 0) := by
  have hlook : lookupP [pEnter] "e" = some pEnter := by
    simp [lookupP, List.find?, pEnter, basePlayer]
  have hroom : roomById worldA "a" = some roomA := by
    simp [roomById, worldA, List.find?, roomA]
  have hsub : subroomById (some roomA) (some "a1") =
      some { id := "a1",
             interior := some { w := some 1000, h := some 680,
                                spawn := some { x := 200, y := 320 } } } := by
    simp [subroomById, roomA, List.find?]
  constructor
  · exact claimC10_enter.1 worldA [pEnter] "e" "a" pEnter roomA hlook hroom
  · obtain ⟨q, h1, h2, h3, _, _, h4, h5, h6, h7, _, _⟩ :=
      claimC10_enter.2 worldA [pEnter] "e" "a" "a1" pEnter roomA _ hlook hroom hsub
    exact ⟨q, h1, h2, h3, h4, h5, h6, h7⟩

/-! ### C7 — action requests: equip check, broadcast, target clamping -/

lemma clamp_bounds {b v : ℝ} (hb : 0 ≤ b) :
    0 ≤ max 0 (min b v) ∧ max 0 (min b v) ≤ b :=
  ⟨le_max_left _ _, max_le hb (min_le_left _ _)⟩

lemma clampTarget_room (w : World) (t : Option Pt) (rid : String)
    (sub : Option String) :
    clampTarget w t (some rid) sub =
      { x := max 0 (min (effRoomW w rid sub)
          ((jsToInt32 (t.getD { x := 0, y := 0 }).x : ℝ))),
        y := max 0 (min (effRoomH w rid sub)
          ((jsToInt32 (t.getD { x := 0, y := 0 }).y : ℝ))) } := by
  cases sub with
  | none => simp [clampTarget, effRoomW, effRoomH, subroomById, jsOrR]
  | some s => simp [clampTarget, effRoomW, effRoomH]

/-- Claim C7: an action request whose kind differs from the session's
currently equipped kind (including when nothing is equipped) is silently
rejected — nothing is broadcast, hit resolution does not run and no
player record changes; when the kinds match, the action payload is
broadcast carrying the server timestamp and a target clamped into the
bounds of the sender's current space. -/
theorem claimC7_action :
    (∀ (w : World) (ps : List Player) (sid : String) (kind : Option String)
      (target : Option Pt) (aid : Option String) (now : ℤ) (a : Player),
      lookupP ps sid = some a → ¬ a.equippedKind = kind →
      actionHandler w ps sid kind target aid now = (ps, none, [])) ∧
    (∀ (w : World) (ps : List Player) (sid : String) (kind : Option String)
      (target : Option Pt) (aid : Option String) (now : ℤ) (a : Player),
      lookupP ps sid = some a → a.equippedKind = kind →
      ∃ pl, (actionHandler w ps sid kind target aid now).2.1 = some pl ∧
        pl.ts = now ∧ pl.id = a.id ∧ pl.kind = kind ∧
        pl.roomId = a.roomId ∧ pl.subroomId = a.subroomId ∧
        (a.roomId = none → 0 ≤ effCampusW w → 0 ≤ effCampusH w →
          0 ≤ pl.target.x ∧ pl.target.x ≤ effCampusW w ∧
          0 ≤ pl.target.y ∧ pl.target.y ≤ effCampusH w) ∧
        (∀ rid, a.roomId = some rid →
          0 ≤ effRoomW w rid a.subroomId → 0 ≤ effRoomH w rid a.subroomId →
          0 ≤ pl.target.x ∧ pl.target.x ≤ effRoomW w rid a.subroomId ∧
          0 ≤ pl.target.y ∧ pl.target.y ≤ effRoomH w rid a.subroomId)) := by
  constructor
  · intro w ps sid kind target aid now a ha hne
    unfold actionHandler
    simp only [ha]
    rw [if_pos hne]
  · intro w ps sid kind target aid now a ha heq
    unfold actionHandler
    simp only [ha]
    rw [if_neg (not_not_intro heq)]
    cases hroom : a.roomId with
    | none =>
      refine ⟨{ id := a.id,
                kind := kind,
                aid := aid,
                space := "campus",
                roomId := none,
                subroomId := a.subroomId,
                origin := { x := a.x, y := a.y },
                target := clampTarget w target none a.subroomId,
                ts := now },
              ?_, rfl, rfl, rfl, rfl, rfl, ?_, ?_⟩
      · by_cases hb : kind = some "bat" <;> simp [hb]
      · intro _ hW hH
        unfold effCampusW at hW
        unfold effCampusH at hH
        simp only [clampTarget]
        exact ⟨(clamp_bounds hW).1, (clamp_bounds hW).2,
               (clamp_bounds hH).1, (clamp_bounds hH).2⟩
      · intro rid hrid
        exact absurd hrid (by simp)
    | some rid =>
      refine ⟨{ id := a.id,
                kind := kind,
                aid := aid,
                space := "room",
                roomId := some rid,
                subroomId := a.subroomId,
                origin := { x := a.rx, y := a.ry },
                target := clampTarget w target (some rid) a.subroomId,
                ts := now },
              ?_, rfl, rfl, rfl, rfl, rfl, ?_, ?_⟩
      · by_cases hb : kind = some "bat" <;> simp [hb]
      · intro hnone
        exact absurd hnone (by simp)
      · intro rid2 hrid hW hH
        injection hrid with hrid
        subst hrid
        rw [clampTarget_room]
        exact ⟨(clamp_bounds hW).1, (clamp_bounds hW).2,
               (clamp_bounds hH).1, (clamp_bounds hH).2⟩

/-- A player with a ball equipped, used for the action-handler witness. -/
noncomputable def pAct : Player :=
  { basePlayer with id := "k", name := "Kim", equippedKind := some "ball" }

/-- Claim C7 (witness): a `bat` action from a session holding a ball is a
no-op, and a `ball` action from the same session is broadcast with the
server timestamp and an in-bounds target. -/
theorem claimC7_witness :
    actionHandler DEFAULT_WORLD [pAct] "k" (some "bat") (some { x := 5000, y := -3 })
      none 1000 = ([pAct], none, []) ∧
    ∃ pl, (actionHandler DEFAULT_WORLD [pAct] "k" (some "ball")
        (some { x := 5000, y := -3 }) none 1000).2.1 = some pl ∧
      pl.ts = 1000 ∧ pl.id = pAct.id ∧ pl.kind = some "ball" ∧
      pl.roomId = pAct.roomId ∧ pl.subroomId = pAct.subroomId ∧
      (pAct.roomId = none → 0 ≤ effCampusW DEFAULT_WORLD → 0 ≤ effCampusH DEFAULT_WORLD →
        0 ≤ pl.target.x ∧ pl.target.x ≤ effCampusW DEFAULT_WORLD ∧
        0 ≤ pl.target.y ∧ pl.target.y ≤ effCampusH DEFAULT_WORLD) ∧
      (∀ rid, pAct.roomId = some rid →
        0 ≤ effRoomW DEFAULT_WORLD rid pAct.subroomId →
        0 ≤ effRoomH DEFAULT_WORLD rid pAct.subroomId →
        0 ≤ pl.target.x ∧ pl.target.x ≤ effRoomW DEFAULT_WORLD rid pAct.subroomId ∧
        0 ≤ pl.target.y ∧ pl.target.y ≤ effRoomH DEFAULT_WORLD rid pAct.subroomId) := by
  have hlook : lookupP [pAct] "k" = some pAct := by
    simp [lookupP, List.find?, pAct, basePlayer]
  constructor
  · exact claimC7_action.1 DEFAULT_WORLD [pAct] "k" (some "bat")
      (some { x := 5000, y := -3 }) none 1000 pAct hlook
      (by simp [pAct, basePlayer])
  · exact claimC7_action.2 DEFAULT_WORLD [pAct] "k" (some "ball")
      (some { x := 5000, y := -3 }) none 1000 pAct hlook
      (by simp [pAct, basePlayer])

/-! ### C3 — duplicate-name policy -/

lemma stableMinBy_mem_aux (l : List Player) :
    ∀ (acc m : Player),
      l.foldl
        (fun acc q =>
          match acc with
          | none => some q
          | some m => if q.connectedAt < m.connectedAt then some q else some m)
        (some acc) = some m → m = acc ∨ m ∈ l := by
  induction l with
  | nil => intro acc m h; simp at h; exact Or.inl h.symm
  | cons a t ih =>
    intro acc m h
    simp only [List.foldl_cons] at h
    by_cases hc : a.connectedAt < acc.connectedAt
    · rw [if_pos hc] at h
      rcases ih a m h with h1 | h1
      · exact Or.inr (by simp [h1])
      · exact Or.inr (List.mem_cons_of_mem _ h1)
    · rw [if_neg hc] at h
      rcases ih acc m h with h1 | h1
      · exact Or.inl h1
      · exact Or.inr (List.mem_cons_of_mem _ h1)

lemma stableMinBy_mem {l : List Player} {m : Player}
    (h : stableMinBy l = some m) : m ∈ l := by
  cases l with
  | nil => simp [stableMinBy] at h
  | cons a t =>
    unfold stableMinBy at h
    simp only [List.foldl_cons] at h
    rcases stableMinBy_mem_aux t a m h with h1 | h1
    · simp [h1]
    · exact List.mem_cons_of_mem _ h1

lemma mem_holdersOf {ps : List Player} {key : String} {q : Player} :
    q ∈ holdersOf ps key ↔ q ∈ ps ∧ normName q.name = key := by
  simp [holdersOf]

lemma holders_map_id_sublist (ps : List Player) (key : String) :
    List.Sublist ((holdersOf ps key).map Player.id) (ps.map Player.id) :=
  (List.filter_sublist ps).map Player.id

lemma soleSelf_true_of_all {ps : List Player} {key sid : String}
    (hnd : (ps.map Player.id).Nodup)
    (hall : ∀ q ∈ ps, normName q.name = key → q.id = sid) :
    soleSelf (holdersOf ps key) sid = true := by
  cases hh : holdersOf ps key with
  | nil => rfl
  | cons q1 t =>
    cases t with
    | nil =>
      have hq1 : q1 ∈ holdersOf ps key := by simp [hh]
      obtain ⟨hmem, hkey⟩ := mem_holdersOf.1 hq1
      simp [soleSelf, hall q1 hmem hkey]
    | cons q2 t2 =>
      exfalso
      have hq1 : q1 ∈ holdersOf ps key := by simp [hh]
      have hq2 : q2 ∈ holdersOf ps key := by simp [hh]
      obtain ⟨hm1, hk1⟩ := mem_holdersOf.1 hq1
      obtain ⟨hm2, hk2⟩ := mem_holdersOf.1 hq2
      have hsub := holders_map_id_sublist ps key
      rw [hh] at hsub
      have hnd2 := hnd.sublist hsub
      simp only [List.map_cons, List.nodup_cons] at hnd2
      exact hnd2.1
        (by rw [hall q1 hm1 hk1, hall q2 hm2 hk2]; exact List.mem_cons_self _ _)

lemma soleSelf_false_of_other {holders : List Player} {sid : String}
    {q : Player} (hq : q ∈ holders) (hqid : ¬ q.id = sid) :
    soleSelf holders sid = false := by
  cases holders with
  | nil => simp at hq
  | cons a t =>
    cases t with
    | nil =>
      have : q = a := by simpa using hq
      subst this
      simp [soleSelf, hqid]
    | cons b t2 => rfl

lemma lookupP_filter {l : List Player} {sid : String} {x : Player}
    (pred : Player → Bool)
    (h : lookupP l sid = some x) (hx : pred x = true) :
    lookupP (l.filter pred) sid = some x := by
  induction l with
  | nil => simp [lookupP] at h
  | cons a t ih =>
    by_cases ha : a.id = sid
    · have hax : a = x := by
        simpa [lookupP, List.find?_cons_of_pos, ha] using h
      subst hax
      rw [List.filter_cons, if_pos hx]
      simp [lookupP, List.find?_cons_of_pos, ha]
    · have ht : lookupP t sid = some x := by
        simpa [lookupP, List.find?_cons_of_neg, ha] using h
      rw [List.filter_cons]
      by_cases hpa : pred a = true
      · rw [if_pos hpa]
        simpa [lookupP, List.find?_cons_of_neg, ha] using ih ht
      · rw [if_neg hpa]
        exact ih ht

lemma lookupP_filter_none {l : List Player} {sid : String}
    (pred : Player → Bool)
    (hall : ∀ q ∈ l, q.id = sid → pred q = false) :
    lookupP (l.filter pred) sid = none := by
  induction l with
  | nil => rfl
  | cons a t ih =>
    rw [List.filter_cons]
    by_cases hpa : pred a = true
    · rw [if_pos hpa]
      have ha : ¬ a.id = sid := by
        intro h
        rw [hall a (by simp) h] at hpa
        exact Bool.false_ne_true hpa
      have ht := ih (fun q hq => hall q (List.mem_cons_of_mem _ hq))
      simp only [lookupP] at ht ⊢
      rw [List.find?_cons_of_neg]
      · exact ht
      · simp [ha]
    · rw [if_neg hpa]
      exact ih (fun q hq => hall q (List.mem_cons_of_mem _ hq))

lemma stableMinFold_isSome (l : List Player) :
    ∀ acc : Player, ∃ m,
      l.foldl
        (fun acc q =>
          match acc with
          | none => some q
          | some m => if q.connectedAt < m.connectedAt then some q else some m)
        (some acc) = some m := by
  induction l with
  | nil => intro acc; exact ⟨acc, rfl⟩
  | cons a t ih =>
    intro acc
    simp only [List.foldl_cons]
    by_cases hc : a.connectedAt < acc.connectedAt
    · rw [if_pos hc]; exact ih a
    · rw [if_neg hc]; exact ih acc

lemma stableMinBy_isSome {l : List Player} (h : l ≠ []) :
    ∃ m, stableMinBy l = some m := by
  cases l with
  | nil => exact absurd rfl h
  | cons a t =>
    unfold stableMinBy
    simp only [List.foldl_cons]
    exact stableMinFold_isSome t a

lemma lookupP_mem {ps : List Player} {sid : String} {p : Player}
    (h : lookupP ps sid = some p) : p ∈ ps :=
  List.mem_of_find?_eq_some h

/-- Claim C3: the duplicate-name policy.  (A) a name whose normalization is
unused (or held only by the requester) is assigned and confirmed; (B) when
the name is held by others and the requester is not the earliest-connected
holder, the requester is sent a rejection and kicked while the earliest
holder survives untouched; (C) when the requester is the earliest holder it
keeps the name and every other holder is kicked; (D) the periodic sweep
`enforceUniqueNames` removes every non-earliest holder of each name and
keeps the earliest; (E) of two sessions joining the same normalized name in
sequence, the first stays connected and owns the name, the second gets a
kicked notice and is disconnected. -/
theorem claimC3_names :
    (∀ (ps : List Player) (sid raw : String) (p : Player),
      (ps.map Player.id).Nodup →
      lookupP ps sid = some p →
      (∀ q ∈ ps, normName q.name = normName (safeName raw) → q.id = sid) →
      join ps sid raw =
        (setNameIn ps sid (safeName raw), [JoinEv.profile sid (safeName raw)]) ∧
      lookupP (join ps sid raw).1 sid = some { p with name := safeName raw }) ∧
    (∀ (ps : List Player) (sid raw : String) (p ow q0 : Player),
      lookupP ps sid = some p →
      q0 ∈ ps → normName q0.name = normName (safeName raw) → ¬ q0.id = sid →
      stableMinBy (holdersOf ps (normName (safeName raw))) = some ow →
      ¬ ow.id = sid →
      (join ps sid raw).2 =
        [JoinEv.nameError sid (safeName raw),
         JoinEv.kicked sid ("duplicate_name:" ++ normName (safeName raw))] ∧
      lookupP (join ps sid raw).1 sid = none ∧
      ow ∈ (join ps sid raw).1) ∧
    (∀ (ps : List Player) (sid raw : String) (p ow q0 : Player),
      lookupP ps sid = some p →
      q0 ∈ ps → normName q0.name = normName (safeName raw) → ¬ q0.id = sid →
      stableMinBy (holdersOf ps (normName (safeName raw))) = some ow →
      ow.id = sid →
      lookupP (join ps sid raw).1 sid = some { p with name := safeName raw } ∧
      JoinEv.profile sid (safeName raw) ∈ (join ps sid raw).2 ∧
      (∀ q ∈ ps, normName q.name = normName (safeName raw) → ¬ q.id = sid →
        q ∉ (join ps sid raw).1 ∧
        JoinEv.kicked q.id ("duplicate_name:" ++ normName (safeName raw)) ∈
          (join ps sid raw).2)) ∧
    (∀ (ps : List Player) (q ow : Player),
      q ∈ ps → ¬ normName q.name = "" →
      2 ≤ (holdersOf ps (normName q.name)).length →
      stableMinBy (holdersOf ps (normName q.name)) = some ow →
      (q.id = ow.id → q ∈ (enforceUniqueNames ps).1) ∧
      (¬ q.id = ow.id →
        q ∉ (enforceUniqueNames ps).1 ∧
        JoinEv.kicked q.id ("duplicate_name:" ++ normName q.name) ∈
          (enforceUniqueNames ps).2)) ∧
    (∀ (ps0 : List Player) (aId bId rawA rawB : String) (pa pb : Player),
      lookupP ps0 aId = some pa →
      (∀ q ∈ ps0, ¬ normName q.name = normName (safeName rawA)) →
      normName (safeName rawB) = normName (safeName rawA) →
      lookupP (join ps0 aId rawA).1 bId = some pb →
      ¬ normName pb.name = normName (safeName rawA) →
      ¬ bId = aId →
      lookupP (join (join ps0 aId rawA).1 bId rawB).1 aId =
        some { pa with name := safeName rawA } ∧
      lookupP (join (join ps0 aId rawA).1 bId rawB).1 bId = none ∧
      JoinEv.kicked bId ("duplicate_name:" ++ normName (safeName rawB)) ∈
        (join (join ps0 aId rawA).1 bId rawB).2) := by
  have gid : ∀ (sid n : String) (q : Player),
      ((fun q => if q.id = sid then { q with name := n } else q) q).id = q.id := by
    intro sid n q
    by_cases hq : q.id = sid <;> simp [hq]
  have hassign : ∀ (ps : List Player) (sid raw : String) (p : Player),
      lookupP ps sid = some p →
      soleSelf (holdersOf ps (normName (safeName raw))) sid = true →
      join ps sid raw =
        (setNameIn ps sid (safeName raw), [JoinEv.profile sid (safeName raw)]) := by
    intro ps sid raw p hp hsole
    unfold join
    simp only [hp]
    rw [if_pos hsole]
  have hlookset : ∀ (ps : List Player) (sid n : String) (p : Player),
      lookupP ps sid = some p →
      lookupP (setNameIn ps sid n) sid = some { p with name := n } := by
    intro ps sid n p hp
    have hid := lookupP_some_id hp
    unfold setNameIn
    rw [lookupP_map_of_id _ _ _ (gid sid n), hp]
    simp [hid]
  refine ⟨?_, ?_, ?_, ?_, ?_⟩
  · -- (A)
    intro ps sid raw p hnd hp hall
    have hsole := soleSelf_true_of_all hnd hall
    have hj := hassign ps sid raw p hp hsole
    refine ⟨hj, ?_⟩
    rw [hj]
    exact hlookset ps sid (safeName raw) p hp
  · -- (B)
    intro ps sid raw p ow q0 hp hq0 hk0 hq0id howner hownid
    have hsole := soleSelf_false_of_other (mem_holdersOf.2 ⟨hq0, hk0⟩) hq0id
    have hj : join ps sid raw =
        (removeP ps sid,
         [JoinEv.nameError sid (safeName raw),
          JoinEv.kicked sid ("duplicate_name:" ++ normName (safeName raw))]) := by
      unfold join
      simp only [hp]
      rw [hsole]
      simp only [Bool.false_eq_true, if_false]
      rw [howner]
      simp only
      rw [if_neg hownid]
    rw [hj]
    refine ⟨rfl, ?_, ?_⟩
    · exact lookupP_filter_none _ (by intro q hq hqs; simp [hqs])
    · have howm := mem_holdersOf.1 (stableMinBy_mem howner)
      exact List.mem_filter.2 ⟨howm.1, by simp [hownid]⟩
  · -- (C)
    intro ps sid raw p ow q0 hp hq0 hk0 hq0id howner hownid
    have hsole := soleSelf_false_of_other (mem_holdersOf.2 ⟨hq0, hk0⟩) hq0id
    have hj : join ps sid raw =
        ((setNameIn ps sid (safeName raw)).filter
           (fun q => q.id = sid ∨ ¬ normName q.name = normName (safeName raw)),
         ((holdersOf ps (normName (safeName raw))).filter
            (fun q => ¬ q.id = sid)).map
           (fun q => JoinEv.kicked q.id
             ("duplicate_name:" ++ normName (safeName raw)))
           ++ [JoinEv.profile sid (safeName raw)]) := by
      unfold join
      simp only [hp]
      rw [hsole]
      simp only [Bool.false_eq_true, if_false]
      rw [howner]
      simp only
      rw [if_pos hownid]
    rw [hj]
    refine ⟨?_, ?_, ?_⟩
    · exact lookupP_filter _ (hlookset ps sid (safeName raw) p hp)
        (by simp [lookupP_some_id hp])
    · exact List.mem_append.2 (Or.inr (by simp))
    · intro q hq hkq hqid
      constructor
      · intro hmem
        have := (List.mem_filter.1 hmem).2
        simp only [decide_eq_true_eq] at this
        rcases this with h1 | h1
        · exact hqid h1
        · exact h1 hkq
      · refine List.mem_append.2 (Or.inl ?_)
        exact List.mem_map_of_mem _
          (List.mem_filter.2 ⟨mem_holdersOf.2 ⟨hq, hkq⟩, by simp [hqid]⟩)
  · -- (D)
    intro ps q ow hq hkey hlen howner
    have hdk : dupKicked ps q = !(ow.id == q.id) := by
      unfold dupKicked
      rw [if_neg hkey, if_neg (by omega), howner]
    constructor
    · intro hid
      refine List.mem_filter.2 ⟨hq, ?_⟩
      rw [hdk]
      simp [hid]
    · intro hid
      have hdk2 : dupKicked ps q = true := by
        rw [hdk]
        simp only [Bool.not_eq_true']
        simp only [beq_eq_false_iff_ne, ne_eq]
        intro h
        exact hid (h ▸ rfl)
      constructor
      · intro hmem
        have := (List.mem_filter.1 hmem).2
        rw [hdk2] at this
        simp at this
      · exact List.mem_map_of_mem _ (List.mem_filter.2 ⟨hq, by simp [hdk2]⟩)
  · -- (E)
    intro ps0 aId bId rawA rawB pa pb hpa hnone hkeyeq hpb hpbk hba
    have hholders0 : holdersOf ps0 (normName (safeName rawA)) = [] :=
      List.filter_eq_nil_iff.2 (fun q hq => by simp [hnone q hq])
    have hsole1 : soleSelf (holdersOf ps0 (normName (safeName rawA))) aId = true := by
      rw [hholders0]; rfl
    have hj1 := hassign ps0 aId rawA pa hpa hsole1
    set key := normName (safeName rawA) with hkeydef
    set ps1 := setNameIn ps0 aId (safeName rawA) with hps1
    have hpa1 : lookupP ps1 aId = some { pa with name := safeName rawA } :=
      hlookset ps0 aId (safeName rawA) pa hpa
    have hpamem : { pa with name := safeName rawA } ∈ ps1 := lookupP_mem hpa1
    have hpakey : normName (Player.name { pa with name := safeName rawA }) = key := rfl
    have hall1 : ∀ q ∈ ps1, normName q.name = key → q.id = aId := by
      intro q hq hk
      obtain ⟨r, hr, hrq⟩ := List.mem_map.1 hq
      by_cases hrid : r.id = aId
      · rw [if_pos hrid] at hrq
        rw [← hrq]
        exact hrid
      · rw [if_neg hrid] at hrq
        subst hrq
        exact absurd hk (hnone r hr)
    have hpb1 : lookupP ps1 bId = some pb := by
      rw [hj1] at hpb
      exact hpb
    have hsole2 : soleSelf (holdersOf ps1 (normName (safeName rawB))) bId = false := by
      apply soleSelf_false_of_other
        (q := { pa with name := safeName rawA })
      · rw [hkeyeq]
        exact mem_holdersOf.2 ⟨hpamem, hpakey⟩
      · intro h
        exact hba ((lookupP_some_id hpa ▸ h).symm)
    have hne2 : holdersOf ps1 (normName (safeName rawB)) ≠ [] := by
      intro h
      have : { pa with name := safeName rawA } ∈ holdersOf ps1 (normName (safeName rawB)) := by
        rw [hkeyeq]
        exact mem_holdersOf.2 ⟨hpamem, hpakey⟩
      rw [h] at this
      simp at this
    obtain ⟨ow2, how2⟩ := stableMinBy_isSome hne2
    have how2id : ow2.id = aId := by
      have := mem_holdersOf.1 (stableMinBy_mem how2)
      exact hall1 ow2 this.1 (hkeyeq ▸ this.2)
    have how2ne : ¬ ow2.id = bId := by
      rw [how2id]
      intro h
      exact hba h.symm
    have hj2 : join ps1 bId rawB =
        (removeP ps1 bId,
         [JoinEv.nameError bId (safeName rawB),
          JoinEv.kicked bId ("duplicate_name:" ++ normName (safeName rawB))]) := by
      unfold join
      simp only [hpb1]
      rw [hsole2]
      simp only [Bool.false_eq_true, if_false]
      rw [how2]
      simp only
      rw [if_neg how2ne]
    rw [hj1]
    simp only [← hps1]
    rw [hj2]
    refine ⟨?_, ?_, ?_⟩
    · apply lookupP_filter _ hpa1
      have : pa.id = aId := lookupP_some_id hpa
      simp only [decide_eq_true_eq]
      intro h
      exact hba ((this ▸ h).symm)
    · exact lookupP_filter_none _ (by intro q hq hqs; simp [hqs])
    · simp

/-- First-connected session of the duplicate-name scenario. -/
noncomputable def pA3 : Player :=
  { basePlayer with id := "a", connectedAt := 0 }

/-- Later-connected session of the duplicate-name scenario. -/
noncomputable def pB3 : Player :=
  { basePlayer with id := "b", connectedAt := 5 }

/-- Claim C3 (witness): session `a` joins as `Zoe`, then session `b` joins
as `zoe`; `a` stays connected owning the name, `b` is kicked and removed. -/
theorem claimC3_witness :
    lookupP (join (join [pA3, pB3] "a" "Zoe").1 "b" "zoe").1 "a" =
      some { pA3 with name := safeName "Zoe" } ∧
    lookupP (join (join [pA3, pB3] "a" "Zoe").1 "b" "zoe").1 "b" = none ∧
    JoinEv.kicked "b" ("duplicate_name:" ++ normName (safeName "zoe")) ∈
      (join (join [pA3, pB3] "a" "Zoe").1 "b" "zoe").2 := by
  have hpen : ¬ normName "Penguin" = normName (safeName "Zoe") := by decide
  refine claimC3_names.2.2.2.2 [pA3, pB3] "a" "b" "Zoe" "zoe" pA3 pB3 rfl ?_ (by decide)
    rfl hpen (by decide)
  intro q hq
  rcases List.mem_cons.1 hq with h | h
  · subst h; exact hpen
  · rcases List.mem_cons.1 h with h | h
    · subst h; exact hpen
    · simp at h

/-! ### C1 — tick clamps to the space bounds (no radius inset) -/

lemma stepPlayer_space (w : World) (p : Player) :
    (stepPlayer w p).roomId = p.roomId ∧ (stepPlayer w p).subroomId = p.subroomId := by
  unfold stepPlayer
  cases hr : p.roomId <;> simp

lemma stepPlayer_bounds_campus (w : World) (p : Player) (hr : p.roomId = none)
    (hW : 0 ≤ effCampusW w) (hH : 0 ≤ effCampusH w) :
    0 ≤ (stepPlayer w p).x ∧ (stepPlayer w p).x ≤ effCampusW w ∧
    0 ≤ (stepPlayer w p).y ∧ (stepPlayer w p).y ≤ effCampusH w := by
  unfold stepPlayer
  rw [hr]
  exact ⟨(clamp_bounds hW).1, (clamp_bounds hW).2,
         (clamp_bounds hH).1, (clamp_bounds hH).2⟩

lemma stepPlayer_bounds_room (w : World) (p : Player) (rid : String)
    (hr : p.roomId = some rid)
    (hW : 0 ≤ effRoomW w rid p.subroomId) (hH : 0 ≤ effRoomH w rid p.subroomId) :
    0 ≤ (stepPlayer w p).rx ∧ (stepPlayer w p).rx ≤ effRoomW w rid p.subroomId ∧
    0 ≤ (stepPlayer w p).ry ∧ (stepPlayer w p).ry ≤ effRoomH w rid p.subroomId := by
  unfold stepPlayer
  rw [hr]
  exact ⟨(clamp_bounds hW).1, (clamp_bounds hW).2,
         (clamp_bounds hH).1, (clamp_bounds hH).2⟩

lemma runTicks_cons (w : World) (p : Player) (i : Input) (t : List Input) :
    runTicks w p (i :: t) = runTicks w (stepPlayer w { p with input := i }) t := rfl

lemma runTicks_form (w : World) (p : Player) (inps : List Input) (h : inps ≠ []) :
    ∃ q : Player, q.roomId = p.roomId ∧ q.subroomId = p.subroomId ∧
      runTicks w p inps = stepPlayer w q := by
  induction inps generalizing p with
  | nil => exact absurd rfl h
  | cons i t ih =>
    cases t with
    | nil => exact ⟨{ p with input := i }, rfl, rfl, rfl⟩
    | cons j t2 =>
      obtain ⟨q, h1, h2, h3⟩ :=
        ih (stepPlayer w { p with input := i }) (by simp)
      refine ⟨q, ?_, ?_, ?_⟩
      · rw [h1, (stepPlayer_space w { p with input := i }).1]
      · rw [h2, (stepPlayer_space w { p with input := i }).2]
      · rw [runTicks_cons, h3]

/-- Claim C1 (amended): for every world, player, knockback state and
nonempty input sequence, the position after the last tick lies within
`[0, spaceWidth] × [0, spaceHeight]` of the player's current space — the
tick clamp of `server.js` uses the raw space bounds, with no inset by the
avatar's collision radius. -/
theorem claimC1_amended (w : World) (p : Player) (inps : List Input)
    (hne : inps ≠ []) :
    (p.roomId = none → 0 ≤ effCampusW w → 0 ≤ effCampusH w →
      0 ≤ (runTicks w p inps).x ∧ (runTicks w p inps).x ≤ effCampusW w ∧
      0 ≤ (runTicks w p inps).y ∧ (runTicks w p inps).y ≤ effCampusH w) ∧
    (∀ rid, p.roomId = some rid →
      0 ≤ effRoomW w rid p.subroomId → 0 ≤ effRoomH w rid p.subroomId →
      0 ≤ (runTicks w p inps).rx ∧
      (runTicks w p inps).rx ≤ effRoomW w rid p.subroomId ∧
      0 ≤ (runTicks w p inps).ry ∧
      (runTicks w p inps).ry ≤ effRoomH w rid p.subroomId) := by
  obtain ⟨q, hq1, hq2, hq3⟩ := runTicks_form w p inps hne
  constructor
  · intro hr hW hH
    rw [hq3]
    exact stepPlayer_bounds_campus w q (hq1.trans hr) hW hH
  · intro rid hr hW hH
    rw [hq3]
    have := stepPlayer_bounds_room w q rid (hq1.trans hr)
    rw [hq2] at this
    exact this hW hH

/-- A player standing near the left world edge, pressing only `left`. -/
noncomputable def pLeft : Player :=
  { basePlayer with
      x := 5,
      y := 50,
      input := { up := false, down := false, left := true, right := false } }

/-- Claim C1 (counterexample): the claim as stated — position stays within
`[collision-radius, spaceWidth − collision-radius] × …` — is false: a
player at `x = 5` walking left is clamped to `x = 0`, strictly inside the
collision radius 18, after a single tick. -/
theorem claimC1_counterexample :
    (stepPlayer DEFAULT_WORLD pLeft).x = 0 ∧
    (stepPlayer DEFAULT_WORLD pLeft).x < avatarRadius := by
  have hh : hypot (-1 : ℝ) 0 = 1 := by
    rw [hypot, show ((-1 : ℝ) ^ 2 + 0 ^ 2) = 1 by norm_num, Real.sqrt_one]
  have hx : (stepPlayer DEFAULT_WORLD pLeft).x = 0 := by
    unfold stepPlayer
    simp only [pLeft, basePlayer]
    norm_num [hh, effCampusW, jsOrR, DEFAULT_WORLD, DT, TICK_MS, CAMPUS_SPEED]
  exact ⟨hx, by rw [hx]; norm_num [avatarRadius]⟩

/-- Claim C1 (witness): the amended bounds at a concrete player and world. -/
theorem claimC1_witness :
    0 ≤ (runTicks DEFAULT_WORLD pLeft
        [{ up := false, down := false, left := true, right := false }]).x ∧
    (runTicks DEFAULT_WORLD pLeft
        [{ up := false, down := false, left := true, right := false }]).x ≤
      effCampusW DEFAULT_WORLD ∧
    0 ≤ (runTicks DEFAULT_WORLD pLeft
        [{ up := false, down := false, left := true, right := false }]).y ∧
    (runTicks DEFAULT_WORLD pLeft
        [{ up := false, down := false, left := true, right := false }]).y ≤
      effCampusH DEFAULT_WORLD :=
  (claimC1_amended DEFAULT_WORLD pLeft
      [{ up := false, down := false, left := true, right := false }]
      (by simp)).1 rfl
    (by norm_num [effCampusW, jsOrR, DEFAULT_WORLD])
    (by norm_num [effCampusH, jsOrR, DEFAULT_WORLD])

/-! ### C6 — knockback decays geometrically -/

lemma stepPlayer_kv_campus (w : World) (p : Player) (h : p.roomId = none) :
    (stepPlayer w p).kvx = p.kvx * FRICTION ∧
    (stepPlayer w p).kvy = p.kvy * FRICTION := by
  unfold stepPlayer
  rw [h]
  exact ⟨rfl, rfl⟩

lemma stepPlayer_rkv_room (w : World) (p : Player) (rid : String)
    (h : p.roomId = some rid) :
    (stepPlayer w p).rkvx = p.rkvx * FRICTION ∧
    (stepPlayer w p).rkvy = p.rkvy * FRICTION := by
  unfold stepPlayer
  rw [h]
  exact ⟨rfl, rfl⟩

lemma runTicks_kv_campus (w : World) (inps : List Input) :
    ∀ p : Player, p.roomId = none →
      (runTicks w p inps).kvx = p.kvx * FRICTION ^ inps.length ∧
      (runTicks w p inps).kvy = p.kvy * FRICTION ^ inps.length := by
  induction inps with
  | nil => intro p _; simp [runTicks]
  | cons i t ih =>
    intro p h
    have hstep := stepPlayer_kv_campus w { p with input := i } h
    have hroom : (stepPlayer w { p with input := i }).roomId = none := by
      rw [(stepPlayer_space w { p with input := i }).1]; exact h
    obtain ⟨ihx, ihy⟩ := ih (stepPlayer w { p with input := i }) hroom
    rw [runTicks_cons]
    constructor
    · rw [ihx, hstep.1]
      simp only [List.length_cons, pow_succ]
      ring
    · rw [ihy, hstep.2]
      simp only [List.length_cons, pow_succ]
      ring

lemma runTicks_rkv_room (w : World) (inps : List Input) (rid : String) :
    ∀ p : Player, p.roomId = some rid →
      (runTicks w p inps).rkvx = p.rkvx * FRICTION ^ inps.length ∧
      (runTicks w p inps).rkvy = p.rkvy * FRICTION ^ inps.length := by
  induction inps with
  | nil => intro p _; simp [runTicks]
  | cons i t ih =>
    intro p h
    have hstep := stepPlayer_rkv_room w { p with input := i } rid h
    have hroom : (stepPlayer w { p with input := i }).roomId = some rid := by
      rw [(stepPlayer_space w { p with input := i }).1]; exact h
    obtain ⟨ihx, ihy⟩ := ih (stepPlayer w { p with input := i }) hroom
    rw [runTicks_cons]
    constructor
    · rw [ihx, hstep.1]
      simp only [List.length_cons, pow_succ]
      ring
    · rw [ihy, hstep.2]
      simp only [List.length_cons, pow_succ]
      ring

lemma hypot_scale (a b c : ℝ) (hc : 0 ≤ c) :
    hypot (a * c) (b * c) = hypot a b * c := by
  unfold hypot
  rw [show (a * c) ^ 2 + (b * c) ^ 2 = (a ^ 2 + b ^ 2) * c ^ 2 by ring,
      Real.sqrt_mul (by positivity), Real.sqrt_sq hc]

/-- Claim C6: with no further hits, the knockback accumulator of the
player's current space decays by exactly the friction factor each tick:
its magnitude after `n` ticks (under arbitrary movement input) equals the
initial magnitude times `FRICTION ^ n`, and `V · FRICTION ^ n → 0`. -/
theorem claimC6_knockback :
    (∀ (w : World) (p : Player) (inps : List Input), p.roomId = none →
      hypot (runTicks w p inps).kvx (runTicks w p inps).kvy =
        hypot p.kvx p.kvy * FRICTION ^ inps.length) ∧
    (∀ (w : World) (p : Player) (inps : List Input) (rid : String),
      p.roomId = some rid →
      hypot (runTicks w p inps).rkvx (runTicks w p inps).rkvy =
        hypot p.rkvx p.rkvy * FRICTION ^ inps.length) ∧
    (∀ V : ℝ, Filter.Tendsto (fun n : ℕ => V * FRICTION ^ n)
      Filter.atTop (nhds 0)) := by
  have hfn : ∀ n : ℕ, 0 ≤ FRICTION ^ n := by
    intro n
    exact pow_nonneg (by norm_num [FRICTION]) n
  refine ⟨?_, ?_, ?_⟩
  · intro w p inps h
    obtain ⟨hx, hy⟩ := runTicks_kv_campus w inps p h
    rw [hx, hy, hypot_scale _ _ _ (hfn inps.length)]
  · intro w p inps rid h
    obtain ⟨hx, hy⟩ := runTicks_rkv_room w inps rid p h
    rw [hx, hy, hypot_scale _ _ _ (hfn inps.length)]
  · intro V
    have h := tendsto_pow_atTop_nhds_zero_of_lt_one
      (by norm_num [FRICTION] : (0:ℝ) ≤ FRICTION)
      (by norm_num [FRICTION] : FRICTION < 1)
    have h2 := h.const_mul V
    simpa using h2

/-- A campus player carrying a knockback impulse of magnitude 5. -/
noncomputable def pKnock : Player :=
  { basePlayer with kvx := 3, kvy := 4 }

/-- Claim C6 (witness): the decay law applied to a concrete impulse of
magnitude 5 over one tick, plus the limit statement at `V = 5`. -/
theorem claimC6_witness :
    hypot
      (runTicks DEFAULT_WORLD pKnock
        [{ up := false, down := false, left := false, right := false }]).kvx
      (runTicks DEFAULT_WORLD pKnock
        [{ up := false, down := false, left := false, right := false }]).kvy =
      hypot 3 4 * FRICTION ^ 1 ∧
    Filter.Tendsto (fun n : ℕ => (5:ℝ) * FRICTION ^ n) Filter.atTop (nhds 0) := by
  constructor
  · have h := claimC6_knockback.1 DEFAULT_WORLD pKnock
      [{ up := false, down := false, left := false, right := false }] rfl
    simpa [pKnock, basePlayer] using h
  · exact claimC6_knockback.2.2 5

/-! ### The angular-difference computation of `doBatHit` -/

lemma jsTrunc_zero {x : ℝ} (h0 : -1 < x) (h1 : x < 1) : jsTrunc x = 0 := by
  unfold jsTrunc
  by_cases h : 0 ≤ x
  · rw [if_pos h]
    exact Int.floor_eq_zero_iff.2 ⟨h, h1⟩
  · rw [if_neg h]
    push_neg at h
    have hz : ⌊-x⌋ = 0 := Int.floor_eq_zero_iff.2 ⟨by linarith, by linarith⟩
    simp [hz]

lemma jsTrunc_one {x : ℝ} (h0 : 1 ≤ x) (h1 : x < 2) : jsTrunc x = 1 := by
  unfold jsTrunc
  rw [if_pos (by linarith)]
  rw [Int.floor_eq_iff]
  constructor <;> push_cast <;> linarith

lemma jsRem_eq_self {a b : ℝ} (hb : 0 < b) (h0 : -b < a) (h1 : a < b) :
    jsRem a b = a := by
  unfold jsRem
  rw [jsTrunc_zero (by rw [neg_lt, ← neg_div]; exact (div_lt_one hb).2 (by linarith))
      ((div_lt_one hb).2 h1)]
  simp

lemma jsRem_sub_self {a b : ℝ} (hb : 0 < b) (h0 : b ≤ a) (h1 : a < 2 * b) :
    jsRem a b = a - b := by
  unfold jsRem
  rw [jsTrunc_one ((one_le_div hb).2 h0) ((div_lt_iff hb).2 (by linarith))]
  push_cast
  ring

lemma dAngOf_eq_dist {d : ℝ} (h0 : -Real.pi ≤ d) (h1 : d < 2 * Real.pi) :
    dAngOf d = min |d| (2 * Real.pi - |d|) := by
  have hpi := Real.pi_pos
  rcases lt_or_le d Real.pi with hd | hd
  · rcases eq_or_lt_of_le h0 with he | hlt
    · rw [← he]
      unfold dAngOf
      rw [show -Real.pi + Real.pi = (0:ℝ) from by ring]
      rw [jsRem_eq_self (by positivity) (by linarith) (by positivity)]
      rw [abs_of_nonpos (by linarith), abs_of_nonpos (by linarith)]
      rw [min_eq_left (by linarith)]
      ring
    · unfold dAngOf
      rw [jsRem_eq_self (by positivity) (by linarith) (by linarith)]
      rw [show d + Real.pi - Real.pi = d from by ring]
      have habs : |d| < Real.pi := abs_lt.2 ⟨hlt, hd⟩
      rw [min_eq_left (by linarith)]
  · unfold dAngOf
    rw [jsRem_sub_self (by positivity) (by linarith) (by linarith)]
    rw [show d + Real.pi - 2 * Real.pi - Real.pi = d - 2 * Real.pi from by ring]
    rw [abs_of_nonpos (by linarith), abs_of_nonneg (by linarith)]
    rw [min_eq_right (by linarith)]
    ring

lemma dAngOf_wrap {d : ℝ} (h0 : -(2 * Real.pi) < d) (h1 : d < -Real.pi) :
    dAngOf d = -d := by
  have hpi := Real.pi_pos
  unfold dAngOf
  rw [jsRem_eq_self (by positivity) (by linarith) (by linarith)]
  rw [show d + Real.pi - Real.pi = d from by ring, abs_of_neg (by linarith)]

/-- The true angular distance between two directions, as the specification
words it ("the angular difference"): the smaller of `|a − b|` and
`2π − |a − b|`. -/
noncomputable def angularDistance (a b : ℝ) : ℝ :=
  min |a - b| (2 * Real.pi - |a - b|)

lemma angularDistance_le_dAngOf {a b : ℝ} (h0 : -(2 * Real.pi) < a - b)
    (h1 : a - b < 2 * Real.pi) :
    angularDistance a b ≤ dAngOf (a - b) := by
  have hpi := Real.pi_pos
  rcases lt_or_le (a - b) (-Real.pi) with hd | hd
  · rw [dAngOf_wrap h0 hd]
    unfold angularDistance
    calc min |a - b| (2 * Real.pi - |a - b|) ≤ |a - b| := min_le_left _ _
      _ = -(a - b) := abs_of_neg (by linarith)
  · unfold angularDistance
    rw [dAngOf_eq_dist hd h1]

lemma angularDistance_eq_dAngOf {a b : ℝ} (h0 : -Real.pi ≤ a - b)
    (h1 : a - b < 2 * Real.pi) :
    angularDistance a b = dAngOf (a - b) := by
  unfold angularDistance
  rw [dAngOf_eq_dist h0 h1]

lemma arctan_lt_arctan {x y : ℝ} (h : x < y) :
    Real.arctan x < Real.arctan y := Real.arctan_strictMono h

lemma arctan_pos_of {x : ℝ} (h : 0 < x) : 0 < Real.arctan x := by
  rw [show (0:ℝ) = Real.arctan 0 from (Real.arctan_zero).symm]
  exact Real.arctan_strictMono h

lemma arctan_nonpos_of {x : ℝ} (h : x ≤ 0) : Real.arctan x ≤ 0 := by
  rw [show (0:ℝ) = Real.arctan 0 from (Real.arctan_zero).symm]
  exact Real.arctan_strictMono.monotone h

lemma atan2_bounds (y x : ℝ) : -Real.pi < atan2 y x ∧ atan2 y x ≤ Real.pi := by
  have hpi := Real.pi_pos
  have hhi := Real.arctan_lt_pi_div_two (y / x)
  have hlo := Real.neg_pi_div_two_lt_arctan (y / x)
  unfold atan2
  split_ifs with h1 h2 h3 h4 h5
  · exact ⟨by linarith, by linarith⟩
  · have hyx : y / x ≤ 0 := div_nonpos_of_nonneg_of_nonpos h3 (le_of_lt h2)
    have := arctan_nonpos_of hyx
    exact ⟨by linarith, by linarith⟩
  · push_neg at h3
    have hyx : 0 < y / x := div_pos_iff.2 (Or.inr ⟨h3, h2⟩)
    have := arctan_pos_of hyx
    exact ⟨by linarith, by linarith⟩
  · exact ⟨by linarith, by linarith⟩
  · exact ⟨by linarith, by linarith⟩
  · exact ⟨by linarith, by linarith⟩

/-! ### Structure of `batTest`, `batVictim` and `doBatHit` -/

/-- The facing angle of a swing: `Math.atan2(target.y - origin.y,
target.x - origin.x)`. -/
noncomputable def swingAngle (sw : ActionOut) : ℝ :=
  atan2 (sw.target.y - sw.origin.y) (sw.target.x - sw.origin.x)

/-- The same-space filter of `doBatHit`, as a predicate: exact same room id
and same subroom-or-absence (for a campus attacker only the room id is
tested — see `claimC5_isolation` for the subroom part). -/
def sameSpace (a v : Player) : Prop :=
  v.roomId = a.roomId ∧ (a.roomId.isSome = true → v.subroomId = a.subroomId)

lemma batTest_skip_cooldown (a : Player) (ang : ℝ) (sw : ActionOut) (now : ℤ)
    (inRoom : Bool) (v : Player)
    (h : now - v.lastHitTs < BAT_HIT_COOLDOWN_MS) :
    batTest a ang sw now inRoom v = (v, none) := by
  simp only [batTest]
  split_ifs with h1 h2 h3 <;> first | rfl | exact absurd h h3

lemma batTest_skip_arc (a : Player) (ang : ℝ) (sw : ActionOut) (now : ℤ)
    (inRoom : Bool) (v : Player)
    (h : BAT_ARC_RAD * 0.5 <
      dAngOf (atan2 ((victimPos inRoom v).2 - sw.origin.y)
        ((victimPos inRoom v).1 - sw.origin.x) - ang)) :
    batTest a ang sw now inRoom v = (v, none) := by
  simp only [batTest]
  split_ifs with h1 h2 h3 <;> first | rfl | exact absurd h h2

lemma batTest_hit (a : Player) (ang : ℝ) (sw : ActionOut) (now : ℤ)
    (inRoom : Bool) (v : Player)
    (h1 : ¬ BAT_RANGE_PX < hypot ((victimPos inRoom v).1 - sw.origin.x)
      ((victimPos inRoom v).2 - sw.origin.y))
    (h2 : ¬ BAT_ARC_RAD * 0.5 <
      dAngOf (atan2 ((victimPos inRoom v).2 - sw.origin.y)
        ((victimPos inRoom v).1 - sw.origin.x) - ang))
    (h3 : ¬ now - v.lastHitTs < BAT_HIT_COOLDOWN_MS) :
    ∃ e, (batTest a ang sw now inRoom v).2 = some e ∧ e.victimId = v.id ∧
      e.ts = now ∧ ((batTest a ang sw now inRoom v).1).lastHitTs = now := by
  simp only [batTest]
  rw [if_neg h1, if_neg h2, if_neg h3]
  exact ⟨_, rfl, rfl, rfl, rfl⟩

lemma batTest_keep_id (a : Player) (ang : ℝ) (sw : ActionOut) (now : ℤ)
    (inRoom : Bool) (v : Player) :
    ((batTest a ang sw now inRoom v).1).id = v.id := by
  simp only [batTest]
  split_ifs <;> rfl

lemma batTest_event {a : Player} {ang : ℝ} {sw : ActionOut} {now : ℤ}
    {inRoom : Bool} {v : Player} {e : HitEvent}
    (h : (batTest a ang sw now inRoom v).2 = some e) :
    e.victimId = v.id ∧ e.ts = now ∧
      ((batTest a ang sw now inRoom v).1).lastHitTs = now := by
  simp only [batTest] at h ⊢
  split_ifs at h ⊢ with h1 h2 h3
  all_goals first
    | (obtain rfl := Option.some.inj h; exact ⟨rfl, rfl, rfl⟩)
    | simp at h

lemma batVictim_skip_space (a : Player) (ang : ℝ) (sw : ActionOut) (now : ℤ)
    (v : Player) (h : ¬ sameSpace a v) :
    batVictim a ang sw now v = (v, none) := by
  unfold batVictim
  rcases ha : a.roomId with _ | rid <;> dsimp only
  · by_cases hv : v.roomId.isSome = true
    · rw [if_pos hv]
    · exfalso
      apply h
      have hvnone : v.roomId = none := by
        cases hvr : v.roomId with
        | none => rfl
        | some s => rw [hvr] at hv; simp at hv
      exact ⟨by rw [hvnone, ha],
             fun hsome => by rw [ha] at hsome; simp at hsome⟩
  · by_cases h1 : v.roomId = some rid
    · rw [if_neg (not_not_intro h1)]
      by_cases h2 : v.subroomId.isSome = a.subroomId.isSome
      · rw [if_neg (not_not_intro h2)]
        by_cases h3 : v.subroomId.isSome = true ∧ ¬ v.subroomId = a.subroomId
        · rw [if_pos h3]
        · exfalso
          apply h
          refine ⟨by rw [h1, ha], fun _ => ?_⟩
          push_neg at h3
          by_cases hvs : v.subroomId.isSome = true
          · exact h3 hvs
          · have hvnone : v.subroomId = none := by
              cases hvr : v.subroomId with
              | none => rfl
              | some s => rw [hvr] at hvs; simp at hvs
            have hanone : a.subroomId = none := by
              cases har : a.subroomId with
              | none => rfl
              | some s => rw [hvnone, har] at h2; simp at h2
            rw [hvnone, hanone]
      · rw [if_pos h2]
    · rw [if_pos h1]

lemma batVictim_pass_space (a : Player) (ang : ℝ) (sw : ActionOut) (now : ℤ)
    (v : Player) (h : sameSpace a v) :
    batVictim a ang sw now v = batTest a ang sw now a.roomId.isSome v := by
  obtain ⟨hroom, hsub⟩ := h
  unfold batVictim
  rcases ha : a.roomId with _ | rid <;> dsimp only
  · rw [ha] at hroom
    rw [if_neg (by rw [hroom]; simp)]
    rfl
  · rw [ha] at hroom
    have hs : v.subroomId = a.subroomId := hsub (by rw [ha]; rfl)
    rw [if_neg (not_not_intro hroom)]
    rw [if_neg (not_not_intro (by rw [hs]))]
    rw [if_neg (by simp [hs])]
    rfl

lemma batVictim_keep_id (a : Player) (ang : ℝ) (sw : ActionOut) (now : ℤ)
    (v : Player) : ((batVictim a ang sw now v).1).id = v.id := by
  by_cases hs : sameSpace a v
  · rw [batVictim_pass_space _ _ _ _ _ hs]
    exact batTest_keep_id _ _ _ _ _ _
  · rw [batVictim_skip_space _ _ _ _ _ hs]

lemma batVictim_event {a : Player} {ang : ℝ} {sw : ActionOut} {now : ℤ}
    {v : Player} {e : HitEvent}
    (h : (batVictim a ang sw now v).2 = some e) :
    e.victimId = v.id ∧ e.ts = now ∧
      ((batVictim a ang sw now v).1).lastHitTs = now := by
  by_cases hs : sameSpace a v
  · rw [batVictim_pass_space _ _ _ _ _ hs] at h ⊢
    exact batTest_event h
  · rw [batVictim_skip_space _ _ _ _ _ hs] at h
    simp at h

lemma batVictim_cooldown {a : Player} {ang : ℝ} {sw : ActionOut} {now : ℤ}
    {v : Player} (h : now - v.lastHitTs < BAT_HIT_COOLDOWN_MS) :
    batVictim a ang sw now v = (v, none) := by
  by_cases hs : sameSpace a v
  · rw [batVictim_pass_space _ _ _ _ _ hs]
    exact batTest_skip_cooldown _ _ _ _ _ _ h
  · exact batVictim_skip_space _ _ _ _ _ hs

lemma batVictim_skip_arc {a : Player} {ang : ℝ} {sw : ActionOut} {now : ℤ}
    {v : Player}
    (h : BAT_ARC_RAD * 0.5 <
      dAngOf (atan2 ((victimPos a.roomId.isSome v).2 - sw.origin.y)
        ((victimPos a.roomId.isSome v).1 - sw.origin.x) - ang)) :
    batVictim a ang sw now v = (v, none) := by
  by_cases hs : sameSpace a v
  · rw [batVictim_pass_space _ _ _ _ _ hs]
    exact batTest_skip_arc _ _ _ _ _ _ h
  · exact batVictim_skip_space _ _ _ _ _ hs

lemma batVictim_hit {a : Player} {sw : ActionOut} {now : ℤ}
    {v : Player} (hs : sameSpace a v)
    (h1 : ¬ BAT_RANGE_PX < hypot ((victimPos a.roomId.isSome v).1 - sw.origin.x)
      ((victimPos a.roomId.isSome v).2 - sw.origin.y))
    (h2 : ¬ BAT_ARC_RAD * 0.5 <
      dAngOf (atan2 ((victimPos a.roomId.isSome v).2 - sw.origin.y)
        ((victimPos a.roomId.isSome v).1 - sw.origin.x) - swingAngle sw))
    (h3 : ¬ now - v.lastHitTs < BAT_HIT_COOLDOWN_MS) :
    ∃ e, (batVictim a (swingAngle sw) sw now v).2 = some e ∧ e.victimId = v.id ∧
      e.ts = now ∧ ((batVictim a (swingAngle sw) sw now v).1).lastHitTs = now := by
  rw [batVictim_pass_space _ _ _ _ _ hs]
  exact batTest_hit _ _ _ _ _ _ h1 h2 h3

lemma doBatHit_mem_events {a : Player} {sw : ActionOut} {now : ℤ}
    {ps : List Player} {e : HitEvent} (he : e ∈ (doBatHit a sw now ps).2) :
    ∃ v ∈ ps, ¬ v.id = a.id ∧ (batVictim a (swingAngle sw) sw now v).2 = some e := by
  simp only [doBatHit] at he
  obtain ⟨v, hv, hsome⟩ := List.mem_filterMap.1 he
  by_cases hid : v.id = a.id
  · rw [if_pos hid] at hsome
    simp at hsome
  · rw [if_neg hid] at hsome
    exact ⟨v, hv, hid, hsome⟩

lemma doBatHit_events_of {a : Player} {sw : ActionOut} {now : ℤ}
    {ps : List Player} {v : Player} (hv : v ∈ ps) (hid : ¬ v.id = a.id)
    {e : HitEvent} (h : (batVictim a (swingAngle sw) sw now v).2 = some e) :
    e ∈ (doBatHit a sw now ps).2 := by
  simp only [doBatHit]
  refine List.mem_filterMap.2 ⟨v, hv, ?_⟩
  rw [if_neg hid]
  exact h

lemma doBatHit_map_form (a : Player) (sw : ActionOut) (now : ℤ)
    (ps : List Player) :
    (doBatHit a sw now ps).1 =
      ps.map (fun v => if v.id = a.id then v
        else (batVictim a (swingAngle sw) sw now v).1) := rfl

lemma doBatHit_ids (a : Player) (sw : ActionOut) (now : ℤ) (ps : List Player) :
    (doBatHit a sw now ps).1.map Player.id = ps.map Player.id := by
  rw [doBatHit_map_form, List.map_map]
  apply List.map_congr_left
  intro v _
  by_cases hid : v.id = a.id
  · simp [hid]
  · simp only [Function.comp_apply, if_neg hid]
    exact batVictim_keep_id _ _ _ _ _

lemma eq_of_mem_of_id {ps : List Player} (hnd : (ps.map Player.id).Nodup)
    {q v : Player} (hq : q ∈ ps) (hv : v ∈ ps) (h : q.id = v.id) : q = v := by
  induction ps with
  | nil => simp at hq
  | cons a t ih =>
    simp only [List.map_cons, List.nodup_cons] at hnd
    rcases List.mem_cons.1 hq with rfl | hq2
    · rcases List.mem_cons.1 hv with rfl | hv2
      · rfl
      · exact absurd (h ▸ List.mem_map_of_mem Player.id hv2) hnd.1
    · rcases List.mem_cons.1 hv with rfl | hv2
      · exfalso
        apply hnd.1
        rw [← h]
        exact List.mem_map_of_mem Player.id hq2
      · exact ih hnd.2 hq2 hv2

/-! ### C5 — hits never cross space boundaries -/

/-- Claim C5: every Hit Event emitted by a bat action names a victim in
exactly the attacker's space — same room id and same subroom-or-absence
(given the reachable-state invariant that a subroom locator implies a room
locator).  In particular players in another subroom, in the room lobby
while the attacker is in a subroom (or vice versa), or on the campus while
the attacker is in a room, are never hit. -/
theorem claimC5_isolation (a : Player) (sw : ActionOut) (now : ℤ)
    (ps : List Player)
    (hWF : ∀ p ∈ ps, p.subroomId.isSome = true → p.roomId.isSome = true)
    (hWFa : a.subroomId.isSome = true → a.roomId.isSome = true) :
    ∀ e ∈ (doBatHit a sw now ps).2,
      ∃ v ∈ ps, v.id = e.victimId ∧ v.roomId = a.roomId ∧
        v.subroomId = a.subroomId := by
  intro e he
  obtain ⟨v, hv, hne, hsome⟩ := doBatHit_mem_events he
  have hss : sameSpace a v := by
    by_contra hcon
    rw [batVictim_skip_space _ _ _ _ _ hcon] at hsome
    simp at hsome
  obtain ⟨hvid, -, -⟩ := batVictim_event hsome
  refine ⟨v, hv, hvid.symm, hss.1, ?_⟩
  cases ha : a.roomId with
  | some rid => exact hss.2 (by rw [ha]; rfl)
  | none =>
    have hvroom : v.roomId = none := by rw [hss.1, ha]
    have hvsub : v.subroomId = none := by
      cases hsr : v.subroomId with
      | none => rfl
      | some s =>
        have := hWF v hv (by rw [hsr]; rfl)
        rw [hvroom] at this
        simp at this
    have hasub : a.subroomId = none := by
      cases hsr : a.subroomId with
      | none => rfl
      | some s =>
        have := hWFa (by rw [hsr]; rfl)
        rw [ha] at this
        simp at this
    rw [hvsub, hasub]

/-- Bat-swinging attacker for the concrete hit scenarios. -/
noncomputable def paW : Player :=
  { basePlayer with id := "a", equippedKind := some "bat" }

/-- Victim standing exactly at the attacker's position. -/
noncomputable def pvW : Player :=
  { basePlayer with id := "v" }

/-- The concrete swing payload: origin (0,0), target (70,0). -/
noncomputable def swW : ActionOut :=
  { id := "a", kind := some "bat", aid := none, space := "campus",
    roomId := none, subroomId := none,
    origin := { x := 0, y := 0 }, target := { x := 70, y := 0 }, ts := 1000 }

/-! ### C4 — per-victim hit cooldown -/

/-- Number of Hit Events naming a given victim id. -/
def hitsFor (es : List HitEvent) (i : String) : ℕ :=
  (es.filter (fun e => e.victimId = i)).length

lemma hitsFor_filterMap_le (f : Player → Option HitEvent)
    (hf : ∀ q e, f q = some e → e.victimId = q.id) (ps : List Player)
    (i : String) :
    ((ps.filterMap f).filter (fun e => e.victimId = i)).length ≤
      (ps.filter (fun q => q.id = i)).length := by
  induction ps with
  | nil => simp
  | cons q t ih =>
    rw [List.filterMap_cons, List.filter_cons]
    cases hfq : f q with
    | none =>
      by_cases hq : q.id = i
      · rw [if_pos (by simpa using hq)]
        exact le_trans ih (Nat.le_succ _)
      · rw [if_neg (by simpa using hq)]
        exact ih
    | some e =>
      have hev : e.victimId = q.id := hf q e hfq
      rw [List.filter_cons]
      by_cases hq : q.id = i
      · rw [if_pos (by simp [hev, hq]), if_pos (by simpa using hq)]
        simpa using Nat.succ_le_succ ih
      · rw [if_neg (by simp [hev, hq]), if_neg (by simpa using hq)]
        exact ih

lemma hitsFor_le (a : Player) (sw : ActionOut) (now : ℤ) (ps : List Player)
    (i : String) :
    hitsFor (doBatHit a sw now ps).2 i ≤
      (ps.filter (fun q => q.id = i)).length := by
  unfold hitsFor
  have hform : (doBatHit a sw now ps).2 = ps.filterMap
      (fun v => if v.id = a.id then none
        else (batVictim a (swingAngle sw) sw now v).2) := rfl
  rw [hform]
  apply hitsFor_filterMap_le
  intro q e hq
  by_cases hid : q.id = a.id
  · rw [if_pos hid] at hq
    simp at hq
  · rw [if_neg hid] at hq
    exact (batVictim_event hq).1

lemma count_id_le_one {ps : List Player} (hnd : (ps.map Player.id).Nodup)
    (i : String) : (ps.filter (fun q => q.id = i)).length ≤ 1 := by
  induction ps with
  | nil => simp
  | cons a t ih =>
    simp only [List.map_cons, List.nodup_cons] at hnd
    rw [List.filter_cons]
    by_cases ha : a.id = i
    · rw [if_pos (by simpa using ha)]
      have hnil : t.filter (fun q => q.id = i) = [] := by
        apply List.filter_eq_nil_iff.2
        intro q hq
        simp only [decide_eq_true_eq]
        intro hqi
        exact hnd.1 (by rw [ha, ← hqi]; exact List.mem_map_of_mem Player.id hq)
      simp [hnil]
    · rw [if_neg (by simpa using ha)]
      exact ih hnd.2

lemma exists_hit_of_pos {es : List HitEvent} {i : String}
    (h : 0 < hitsFor es i) : ∃ e ∈ es, e.victimId = i := by
  unfold hitsFor at h
  rw [List.length_pos] at h
  obtain ⟨e, he⟩ := List.exists_mem_of_ne_nil _ h
  have hm := List.mem_filter.1 he
  exact ⟨e, hm.1, by simpa using hm.2⟩

/-- Claim C4: bat hits are cooldown-gated per victim.  (1) Two bat swings
within the cooldown window produce at most one Hit Event for a given
victim.  (2) A swing that satisfies the same-space, range and arc tests
against a victim whose cooldown has elapsed registers a hit and stamps the
victim's last-hit timestamp with the swing time. -/
theorem claimC4_cooldown :
    (∀ (a1 a2 : Player) (sw1 sw2 : ActionOut) (t1 t2 : ℤ) (ps : List Player)
      (v : Player),
      (ps.map Player.id).Nodup → v ∈ ps → t2 - t1 < BAT_HIT_COOLDOWN_MS →
      hitsFor (doBatHit a1 sw1 t1 ps).2 v.id +
        hitsFor (doBatHit a2 sw2 t2 (doBatHit a1 sw1 t1 ps).1).2 v.id ≤ 1) ∧
    (∀ (a : Player) (sw : ActionOut) (now : ℤ) (ps : List Player) (v : Player),
      v ∈ ps → ¬ v.id = a.id → sameSpace a v →
      ¬ BAT_RANGE_PX < hypot ((victimPos a.roomId.isSome v).1 - sw.origin.x)
        ((victimPos a.roomId.isSome v).2 - sw.origin.y) →
      ¬ BAT_ARC_RAD * 0.5 < dAngOf
        (atan2 ((victimPos a.roomId.isSome v).2 - sw.origin.y)
          ((victimPos a.roomId.isSome v).1 - sw.origin.x) - swingAngle sw) →
      BAT_HIT_COOLDOWN_MS ≤ now - v.lastHitTs →
      (∃ e ∈ (doBatHit a sw now ps).2, e.victimId = v.id ∧ e.ts = now) ∧
      (∃ q ∈ (doBatHit a sw now ps).1, q.id = v.id ∧ q.lastHitTs = now)) := by
  constructor
  · intro a1 a2 sw1 sw2 t1 t2 ps v hnd hv hlt
    have hnd2 : ((doBatHit a1 sw1 t1 ps).1.map Player.id).Nodup := by
      rw [doBatHit_ids]; exact hnd
    by_cases h1 : hitsFor (doBatHit a1 sw1 t1 ps).2 v.id = 0
    · rw [h1, Nat.zero_add]
      exact le_trans (hitsFor_le _ _ _ _ _) (count_id_le_one hnd2 _)
    · obtain ⟨e1, he1mem, he1vid⟩ :=
        exists_hit_of_pos (Nat.pos_of_ne_zero h1)
      obtain ⟨u, hu, huid, husome⟩ := doBatHit_mem_events he1mem
      have huv : u = v :=
        eq_of_mem_of_id hnd hu hv (by rw [← (batVictim_event husome).1, he1vid])
      subst huv
      have hupd : (batVictim a1 (swingAngle sw1) sw1 t1 u).1 ∈
          (doBatHit a1 sw1 t1 ps).1 := by
        rw [doBatHit_map_form]
        exact List.mem_map.2 ⟨u, hu, by simp [huid]⟩
      have hlast : ((batVictim a1 (swingAngle sw1) sw1 t1 u).1).lastHitTs = t1 :=
        (batVictim_event husome).2.2
      have hupdid : ((batVictim a1 (swingAngle sw1) sw1 t1 u).1).id = u.id :=
        batVictim_keep_id _ _ _ _ _
      have hE2 : hitsFor (doBatHit a2 sw2 t2 (doBatHit a1 sw1 t1 ps).1).2 u.id = 0 := by
        unfold hitsFor
        rw [List.length_eq_zero]
        apply List.filter_eq_nil_iff.2
        intro e2 he2
        simp only [decide_eq_true_eq]
        intro he2vid
        obtain ⟨u2, hu2, hu2id, hu2some⟩ := doBatHit_mem_events he2
        have hu2eq : u2 = (batVictim a1 (swingAngle sw1) sw1 t1 u).1 :=
          eq_of_mem_of_id hnd2 hu2 hupd
            (by rw [← (batVictim_event hu2some).1, he2vid, hupdid])
        rw [batVictim_cooldown (by rw [hu2eq, hlast]; exact hlt)] at hu2some
        simp at hu2some
      rw [hE2]
      have hle : hitsFor (doBatHit a1 sw1 t1 ps).2 u.id ≤ 1 :=
        le_trans (hitsFor_le _ _ _ _ _) (count_id_le_one hnd _)
      omega
  · intro a sw now ps v hv hne hss h1 h2 hcool
    have h3 : ¬ now - v.lastHitTs < BAT_HIT_COOLDOWN_MS := not_lt.2 hcool
    obtain ⟨e, hesome, hevid, hets, hlast⟩ := batVictim_hit hss h1 h2 h3
    constructor
    · exact ⟨e, doBatHit_events_of hv hne hesome, hevid, hets⟩
    · refine ⟨(batVictim a (swingAngle sw) sw now v).1, ?_,
        batVictim_keep_id _ _ _ _ _, hlast⟩
      rw [doBatHit_map_form]
      exact List.mem_map.2 ⟨v, hv, by simp [hne]⟩

/-! ### Concrete angle evaluations -/

lemma atan2_zero_zero : atan2 0 0 = 0 := by
  unfold atan2
  rw [if_neg (lt_irrefl (0:ℝ)), if_neg (lt_irrefl (0:ℝ)),
      if_neg (lt_irrefl (0:ℝ)), if_neg (lt_irrefl (0:ℝ))]

lemma atan2_zero_pos {x : ℝ} (hx : 0 < x) : atan2 0 x = 0 := by
  unfold atan2
  rw [if_pos hx, zero_div, Real.arctan_zero]

lemma atan2_zero_neg {x : ℝ} (hx : x < 0) : atan2 0 x = Real.pi := by
  unfold atan2
  rw [if_neg (by linarith), if_pos hx, if_pos (le_refl (0:ℝ)), zero_div,
      Real.arctan_zero, zero_add]

lemma dAngOf_zero : dAngOf 0 = 0 := by
  have hpi := Real.pi_pos
  unfold dAngOf
  rw [zero_add, jsRem_eq_self (by positivity) (by linarith) (by linarith)]
  simp

lemma arc_nonneg : 0 ≤ BAT_ARC_RAD * 0.5 := by
  unfold BAT_ARC_RAD
  positivity

lemma hitW_range : ¬ BAT_RANGE_PX <
    hypot ((victimPos paW.roomId.isSome pvW).1 - swW.origin.x)
      ((victimPos paW.roomId.isSome pvW).2 - swW.origin.y) := by
  show ¬ BAT_RANGE_PX < hypot ((0:ℝ) - 0) ((0:ℝ) - 0)
  unfold hypot BAT_RANGE_PX
  rw [show ((0:ℝ) - 0) ^ 2 + ((0:ℝ) - 0) ^ 2 = 0 from by norm_num, Real.sqrt_zero]
  norm_num

lemma hitW_swingAngle : swingAngle swW = 0 := by
  show atan2 ((0:ℝ) - 0) ((70:ℝ) - 0) = 0
  rw [show ((0:ℝ) - 0) = 0 from by norm_num, show ((70:ℝ) - 0) = 70 from by norm_num]
  exact atan2_zero_pos (by norm_num)

lemma hitW_arc : ¬ BAT_ARC_RAD * 0.5 < dAngOf
    (atan2 ((victimPos paW.roomId.isSome pvW).2 - swW.origin.y)
      ((victimPos paW.roomId.isSome pvW).1 - swW.origin.x) - swingAngle swW) := by
  rw [hitW_swingAngle]
  show ¬ BAT_ARC_RAD * 0.5 < dAngOf (atan2 ((0:ℝ) - 0) ((0:ℝ) - 0) - 0)
  rw [show ((0:ℝ) - 0) = 0 from by norm_num, atan2_zero_zero,
      show ((0:ℝ) - 0) = 0 from by norm_num, dAngOf_zero]
  exact not_lt.2 arc_nonneg

/-- Claim C5 (witness): on a concrete two-player campus state the swing
emits a Hit Event, and that event's victim is in the attacker's space. -/
theorem claimC5_witness :
    ∃ e, e ∈ (doBatHit paW swW 1000 [paW, pvW]).2 ∧
      ∃ v ∈ [paW, pvW], v.id = e.victimId ∧ v.roomId = paW.roomId ∧
        v.subroomId = paW.subroomId := by
  have hss : sameSpace paW pvW :=
    ⟨rfl, fun hf => absurd hf (by simp [paW, basePlayer])⟩
  obtain ⟨e, hesome, -, -, -⟩ := batVictim_hit hss hitW_range hitW_arc
    (show ¬ (1000:ℤ) - pvW.lastHitTs < BAT_HIT_COOLDOWN_MS from
      by norm_num [pvW, basePlayer, BAT_HIT_COOLDOWN_MS])
  have hemem : e ∈ (doBatHit paW swW 1000 [paW, pvW]).2 :=
    doBatHit_events_of (List.mem_cons_of_mem _ (List.mem_cons_self _ _))
      (by simp [paW, pvW, basePlayer]) hesome
  refine ⟨e, hemem, ?_⟩
  apply claimC5_isolation paW swW 1000 [paW, pvW] ?_ ?_ e hemem
  · intro p hp
    rcases List.mem_cons.1 hp with rfl | hp2
    · intro hfalse; simp [paW, basePlayer] at hfalse
    · rcases List.mem_cons.1 hp2 with rfl | hp3
      · intro hfalse; simp [pvW, basePlayer] at hfalse
      · simp at hp3
  · intro hfalse; simp [paW, basePlayer] at hfalse

/-! ### C2 — the directional hit cone -/

/-- Claim C2 (amended): (1) a candidate in the attacker's space within
range and off cooldown registers a hit whenever the signed angle
difference `toVictim − facing` does not wrap below `−π` and the true
angular difference is at most half the arc width — in particular a
candidate the facing angle points at directly; (2) a candidate whose true
angular difference exceeds half the arc width never registers a hit.
(When the signed difference wraps below `−π`, the remainder computation
overestimates the difference and the candidate is skipped — see the
counterexample.) -/
theorem claimC2_arc :
    (∀ (a : Player) (sw : ActionOut) (now : ℤ) (ps : List Player) (v : Player),
      v ∈ ps → ¬ v.id = a.id → sameSpace a v →
      hypot ((victimPos a.roomId.isSome v).1 - sw.origin.x)
        ((victimPos a.roomId.isSome v).2 - sw.origin.y) ≤ BAT_RANGE_PX →
      BAT_HIT_COOLDOWN_MS ≤ now - v.lastHitTs →
      -Real.pi ≤ atan2 ((victimPos a.roomId.isSome v).2 - sw.origin.y)
          ((victimPos a.roomId.isSome v).1 - sw.origin.x) - swingAngle sw →
      angularDistance
          (atan2 ((victimPos a.roomId.isSome v).2 - sw.origin.y)
            ((victimPos a.roomId.isSome v).1 - sw.origin.x)) (swingAngle sw) ≤
        BAT_ARC_RAD * 0.5 →
      ∃ e ∈ (doBatHit a sw now ps).2, e.victimId = v.id ∧ e.ts = now) ∧
    (∀ (a : Player) (sw : ActionOut) (now : ℤ) (ps : List Player) (v : Player),
      (ps.map Player.id).Nodup → v ∈ ps →
      BAT_ARC_RAD * 0.5 < angularDistance
        (atan2 ((victimPos a.roomId.isSome v).2 - sw.origin.y)
          ((victimPos a.roomId.isSome v).1 - sw.origin.x)) (swingAngle sw) →
      hitsFor (doBatHit a sw now ps).2 v.id = 0) := by
  constructor
  · intro a sw now ps v hv hne hss hrange hcool hnowrap hdist
    have htv := atan2_bounds ((victimPos a.roomId.isSome v).2 - sw.origin.y)
      ((victimPos a.roomId.isSome v).1 - sw.origin.x)
    have hsw := atan2_bounds (sw.target.y - sw.origin.y) (sw.target.x - sw.origin.x)
    have hlt2 : atan2 ((victimPos a.roomId.isSome v).2 - sw.origin.y)
        ((victimPos a.roomId.isSome v).1 - sw.origin.x) - swingAngle sw <
        2 * Real.pi := by
      unfold swingAngle
      linarith [htv.2, hsw.1]
    have harc : ¬ BAT_ARC_RAD * 0.5 < dAngOf
        (atan2 ((victimPos a.roomId.isSome v).2 - sw.origin.y)
          ((victimPos a.roomId.isSome v).1 - sw.origin.x) - swingAngle sw) := by
      rw [← angularDistance_eq_dAngOf hnowrap hlt2]
      exact not_lt.2 hdist
    obtain ⟨e, hesome, hevid, hets, -⟩ :=
      batVictim_hit hss (not_lt.2 hrange) harc (not_lt.2 hcool)
    exact ⟨e, doBatHit_events_of hv hne hesome, hevid, hets⟩
  · intro a sw now ps v hnd hv hfar
    unfold hitsFor
    rw [List.length_eq_zero]
    apply List.filter_eq_nil_iff.2
    intro e he
    simp only [decide_eq_true_eq]
    intro hevid
    obtain ⟨u, hu, huid, husome⟩ := doBatHit_mem_events he
    have huv : u = v :=
      eq_of_mem_of_id hnd hu hv (by rw [← (batVictim_event husome).1, hevid])
    subst huv
    have htv := atan2_bounds ((victimPos a.roomId.isSome u).2 - sw.origin.y)
      ((victimPos a.roomId.isSome u).1 - sw.origin.x)
    have hsw := atan2_bounds (sw.target.y - sw.origin.y) (sw.target.x - sw.origin.x)
    have hchain : BAT_ARC_RAD * 0.5 < dAngOf
        (atan2 ((victimPos a.roomId.isSome u).2 - sw.origin.y)
          ((victimPos a.roomId.isSome u).1 - sw.origin.x) - swingAngle sw) :=
      lt_of_lt_of_le hfar
        (angularDistance_le_dAngOf
          (by unfold swingAngle; linarith [htv.1, hsw.2])
          (by unfold swingAngle; linarith [htv.2, hsw.1]))
    rw [batVictim_skip_arc hchain] at husome
    simp at husome

/-! ### C2 counterexample: wrap-around across the ±π cut -/

/-- Attacker at (100, 50) on the campus. -/
noncomputable def paC : Player :=
  { basePlayer with id := "a", x := 100, y := 50 }

/-- Victim at (52, 49): distance ≈ 48.01, true angular offset from the
swing direction ≈ 1.2°. -/
noncomputable def pvC : Player :=
  { basePlayer with id := "v", x := 52, y := 49 }

/-- A swing from (100, 50) aimed at (0, 50): facing angle exactly π. -/
noncomputable def swC : ActionOut :=
  { id := "a", kind := some "bat", aid := none, space := "campus",
    roomId := none, subroomId := none,
    origin := { x := 100, y := 50 }, target := { x := 0, y := 50 }, ts := 1000 }

lemma arctanC_pos : 0 < Real.arctan (1 / 48) := arctan_pos_of (by norm_num)

lemma arctanC_lt : Real.arctan (1 / 48) < Real.pi / 4 := by
  have h := arctan_lt_arctan (show (1:ℝ)/48 < 1 from by norm_num)
  rwa [Real.arctan_one] at h

lemma swC_angle : swingAngle swC = Real.pi := by
  show atan2 ((50:ℝ) - 50) ((0:ℝ) - 100) = Real.pi
  rw [show ((50:ℝ) - 50) = 0 from by norm_num,
      show ((0:ℝ) - 100) = -100 from by norm_num]
  exact atan2_zero_neg (by norm_num)

lemma pvC_angle : atan2 (pvC.y - swC.origin.y) (pvC.x - swC.origin.x) =
    Real.arctan (1 / 48) - Real.pi := by
  show atan2 ((49:ℝ) - 50) ((52:ℝ) - 100) = _
  rw [show ((49:ℝ) - 50) = -1 from by norm_num,
      show ((52:ℝ) - 100) = -48 from by norm_num]
  unfold atan2
  rw [if_neg (by norm_num), if_pos (show (-48:ℝ) < 0 from by norm_num),
      if_neg (show ¬ (0:ℝ) ≤ -1 from by norm_num)]
  norm_num

lemma pvC_dist : hypot (pvC.x - swC.origin.x) (pvC.y - swC.origin.y) ≤
    BAT_RANGE_PX := by
  show hypot ((52:ℝ) - 100) ((49:ℝ) - 50) ≤ BAT_RANGE_PX
  unfold hypot BAT_RANGE_PX
  rw [show ((52:ℝ) - 100) ^ 2 + ((49:ℝ) - 50) ^ 2 = 2305 from by norm_num]
  have h := Real.sqrt_le_sqrt (show (2305:ℝ) ≤ 70 ^ 2 from by norm_num)
  rwa [Real.sqrt_sq (show (0:ℝ) ≤ 70 from by norm_num)] at h

lemma pvC_angDist : angularDistance
    (atan2 (pvC.y - swC.origin.y) (pvC.x - swC.origin.x)) (swingAngle swC) ≤
    BAT_ARC_RAD * 0.5 := by
  have hpi := Real.pi_pos
  have h1 := arctanC_pos
  have h2 := arctanC_lt
  rw [pvC_angle, swC_angle]
  unfold angularDistance
  rw [show Real.arctan (1/48) - Real.pi - Real.pi =
      Real.arctan (1/48) - 2 * Real.pi from by ring]
  rw [abs_of_nonpos (by linarith)]
  rw [show -(Real.arctan (1/48) - 2 * Real.pi) =
      2 * Real.pi - Real.arctan (1/48) from by ring]
  rw [min_eq_right (by linarith)]
  rw [show 2 * Real.pi - (2 * Real.pi - Real.arctan (1/48)) =
      Real.arctan (1/48) from by ring]
  unfold BAT_ARC_RAD
  rw [show Real.pi * 0.75 * 0.5 = 3 / 8 * Real.pi from by ring]
  linarith

lemma pvC_skip : (batVictim paC
    (atan2 (swC.target.y - swC.origin.y) (swC.target.x - swC.origin.x))
    swC 1000 pvC).2 = none := by
  have hpi := Real.pi_pos
  have h1 := arctanC_pos
  have h2 := arctanC_lt
  have hang : atan2 (swC.target.y - swC.origin.y) (swC.target.x - swC.origin.x) =
      Real.pi := swC_angle
  rw [hang]
  have htv : atan2 ((victimPos paC.roomId.isSome pvC).2 - swC.origin.y)
      ((victimPos paC.roomId.isSome pvC).1 - swC.origin.x) =
      Real.arctan (1/48) - Real.pi := pvC_angle
  have harc : BAT_ARC_RAD * 0.5 <
      dAngOf (atan2 ((victimPos paC.roomId.isSome pvC).2 - swC.origin.y)
        ((victimPos paC.roomId.isSome pvC).1 - swC.origin.x) - Real.pi) := by
    rw [htv]
    rw [show Real.arctan (1/48) - Real.pi - Real.pi =
        Real.arctan (1/48) - 2 * Real.pi from by ring]
    rw [dAngOf_wrap (by linarith) (by linarith)]
    rw [show -(Real.arctan (1/48) - 2 * Real.pi) =
        2 * Real.pi - Real.arctan (1/48) from by ring]
    unfold BAT_ARC_RAD
    rw [show Real.pi * 0.75 * 0.5 = 3 / 8 * Real.pi from by ring]
    linarith
  rw [batVictim_skip_arc harc]

/-- Claim C2 (counterexample): the claim as stated is false.  The victim
at (52, 49) is within range (dist ≈ 48 ≤ 70), its true angular difference
from the facing angle is arctan(1/48) ≈ 1.2° ≤ half the 135° arc, it is in
the attacker's space and off cooldown — yet the swing emits no Hit Event,
because the signed difference wraps below −π and the JS remainder
computation evaluates the angular difference as 2π − arctan(1/48). -/
theorem claimC2_counterexample :
    hypot (pvC.x - swC.origin.x) (pvC.y - swC.origin.y) ≤ BAT_RANGE_PX ∧
    angularDistance (atan2 (pvC.y - swC.origin.y) (pvC.x - swC.origin.x))
      (swingAngle swC) ≤ BAT_ARC_RAD * 0.5 ∧
    BAT_HIT_COOLDOWN_MS ≤ 1000 - pvC.lastHitTs ∧
    pvC.roomId = paC.roomId ∧ pvC.subroomId = paC.subroomId ∧
    (doBatHit paC swC 1000 [paC, pvC]).2 = [] := by
  refine ⟨pvC_dist, pvC_angDist, by norm_num [pvC, basePlayer, BAT_HIT_COOLDOWN_MS],
    rfl, rfl, ?_⟩
  have hid1 : (if paC.id = paC.id then (none : Option HitEvent)
      else (batVictim paC
        (atan2 (swC.target.y - swC.origin.y) (swC.target.x - swC.origin.x))
        swC 1000 paC).2) = none := if_pos rfl
  have hid2 : (if pvC.id = paC.id then (none : Option HitEvent)
      else (batVictim paC
        (atan2 (swC.target.y - swC.origin.y) (swC.target.x - swC.origin.x))
        swC 1000 pvC).2) = none := by
    rw [if_neg (show ¬ pvC.id = paC.id from by simp [paC, pvC, basePlayer])]
    exact pvC_skip
  simp only [doBatHit, List.filterMap_cons, List.filterMap_nil, hid1, hid2]
  rfl

/-! ### C2 and C4 witnesses -/

/-- A victim standing directly behind the attacker, at range. -/
noncomputable def pvB : Player :=
  { basePlayer with id := "b", x := -70 }

lemma hitW_nowrap : -Real.pi ≤
    atan2 ((victimPos paW.roomId.isSome pvW).2 - swW.origin.y)
      ((victimPos paW.roomId.isSome pvW).1 - swW.origin.x) - swingAngle swW := by
  rw [hitW_swingAngle]
  show -Real.pi ≤ atan2 ((0:ℝ) - 0) ((0:ℝ) - 0) - 0
  rw [show ((0:ℝ) - 0) = 0 from by norm_num, atan2_zero_zero]
  have := Real.pi_pos
  linarith

lemma hitW_angDist : angularDistance
    (atan2 ((victimPos paW.roomId.isSome pvW).2 - swW.origin.y)
      ((victimPos paW.roomId.isSome pvW).1 - swW.origin.x)) (swingAngle swW) ≤
    BAT_ARC_RAD * 0.5 := by
  rw [hitW_swingAngle]
  have hz : atan2 ((victimPos paW.roomId.isSome pvW).2 - swW.origin.y)
      ((victimPos paW.roomId.isSome pvW).1 - swW.origin.x) = 0 := by
    show atan2 ((0:ℝ) - 0) ((0:ℝ) - 0) = 0
    rw [show ((0:ℝ) - 0) = 0 from by norm_num]
    exact atan2_zero_zero
  rw [hz]
  unfold angularDistance
  have := Real.pi_pos
  rw [show (0:ℝ) - 0 = 0 from by norm_num, abs_zero, min_eq_left (by linarith)]
  exact arc_nonneg

lemma behindB_angDist : BAT_ARC_RAD * 0.5 < angularDistance
    (atan2 ((victimPos paW.roomId.isSome pvB).2 - swW.origin.y)
      ((victimPos paW.roomId.isSome pvB).1 - swW.origin.x)) (swingAngle swW) := by
  rw [hitW_swingAngle]
  have hz : atan2 ((victimPos paW.roomId.isSome pvB).2 - swW.origin.y)
      ((victimPos paW.roomId.isSome pvB).1 - swW.origin.x) = Real.pi := by
    show atan2 ((0:ℝ) - 0) ((-70:ℝ) - 0) = Real.pi
    rw [show ((0:ℝ) - 0) = 0 from by norm_num,
        show ((-70:ℝ) - 0) = -70 from by norm_num]
    exact atan2_zero_neg (by norm_num)
  rw [hz]
  unfold angularDistance BAT_ARC_RAD
  have := Real.pi_pos
  rw [show Real.pi - 0 = Real.pi from by ring, abs_of_pos (by linarith)]
  rw [min_eq_left (by linarith)]
  nlinarith

/-- Claim C2 (witness): a candidate the facing angle points directly at,
in range with no cooldown, registers a hit; a candidate directly behind
the attacker (angular difference π) never does. -/
theorem claimC2_witness :
    (∃ e ∈ (doBatHit paW swW 1000 [paW, pvW]).2,
      e.victimId = pvW.id ∧ e.ts = 1000) ∧
    hitsFor (doBatHit paW swW 1000 [paW, pvB]).2 pvB.id = 0 := by
  constructor
  · exact claimC2_arc.1 paW swW 1000 [paW, pvW] pvW
      (List.mem_cons_of_mem _ (List.mem_cons_self _ _))
      (by simp [paW, pvW, basePlayer])
      ⟨rfl, fun hf => absurd hf (by simp [paW, basePlayer])⟩
      (not_lt.1 hitW_range)
      (by norm_num [pvW, basePlayer, BAT_HIT_COOLDOWN_MS])
      hitW_nowrap hitW_angDist
  · exact claimC2_arc.2 paW swW 1000 [paW, pvB] pvB
      (by simp [paW, pvB, basePlayer])
      (List.mem_cons_of_mem _ (List.mem_cons_self _ _))
      behindB_angDist

/-- Claim C4 (witness): the same-victim cooldown bound across two swings
200 ms apart, and a concrete registered hit with its timestamp update. -/
theorem claimC4_witness :
    (hitsFor (doBatHit paW swW 1000 [paW, pvW]).2 pvW.id +
      hitsFor (doBatHit paW swW 1200 (doBatHit paW swW 1000 [paW, pvW]).1).2
        pvW.id ≤ 1) ∧
    (∃ e ∈ (doBatHit paW swW 1000 [paW, pvW]).2,
      e.victimId = pvW.id ∧ e.ts = 1000) ∧
    (∃ q ∈ (doBatHit paW swW 1000 [paW, pvW]).1,
      q.id = pvW.id ∧ q.lastHitTs = 1000) := by
  refine ⟨?_, ?_⟩
  · exact claimC4_cooldown.1 paW paW swW swW 1000 1200 [paW, pvW] pvW
      (by simp [paW, pvW, basePlayer])
      (List.mem_cons_of_mem _ (List.mem_cons_self _ _))
      (by norm_num [BAT_HIT_COOLDOWN_MS])
  · exact claimC4_cooldown.2 paW swW 1000 [paW, pvW] pvW
      (List.mem_cons_of_mem _ (List.mem_cons_self _ _))
      (by simp [paW, pvW, basePlayer])
      ⟨rfl, fun hf => absurd hf (by simp [paW, basePlayer])⟩
      hitW_range hitW_arc
      (by norm_num [pvW, basePlayer, BAT_HIT_COOLDOWN_MS])

/-- Claim C8 (witness): the amended sanitization guarantees at a concrete
requested name. -/
theorem claimC8_witness :
    safeName "  Alice!! " ≠ "" ∧ (safeName "  Alice!! ").toList.length ≤ 16 ∧
      ∀ c ∈ (safeName "  Alice!! ").toList, isNameChar c = true :=
  claimC8_amended "  Alice!! "
